import Mathlib

/-!
Verification development for the temp-mail mailbox storage and expiry engine.

The development shallowly embeds the Redis-backed storage engine of the
server corpus: the key-value store with per-key TTLs and ordered lists,
the ingestion write sequences of each server variant, and the read
handlers (inbox listing, attachment download, mailbox create/delete).

Store semantics follow Redis: LPUSH prepends, LTRIM keeps the inclusive
index range (negative indices count from the end) and removes the key
when the resulting range is empty, EXPIRE on an absent key is a no-op,
LRANGE of an absent key is the empty list.  Randomness (generated ids)
and the wall clock are modelled as explicit parameters.
-/

namespace TempMail

/-- Attachment metadata entry as built by `storeAttachments` (server.js):
idx, filename, contentType, size, disposition, cid, stored ("redis" or
"skipped"). -/
structure AttachMeta where
  idx : Nat
  filename : String
  contentType : String
  size : Nat
  disposition : String
  cid : Option String
  stored : String
deriving DecidableEq, Repr

/-- Canonical message record (spec §3 MessageRecord).  The server variants
spell some fields differently (`body_plain`/`text`, `received_at`/`date`);
they are normalized to one shape here.  `toAddr` and `msgFrom` render the
source fields `to` and `from`, which are reserved words in Lean.  Headers
are a key/line list. -/
structure Msg where
  id : String
  toAddr : String
  msgFrom : String
  subject : String
  text : String
  html : String
  raw : String
  headers : List (String × String)
  received_at : String
  date : String
  attachments : List AttachMeta
deriving DecidableEq, Repr

/-- Values held by the key-value store: plain strings (base64 attachment
payloads), message records (stored as JSON and transparently parsed back
by the read path), and ordered lists of strings (mailbox directories). -/
inductive RVal : Type where
  | str (s : String)
  | msg (m : Msg)
  | list (l : List String)
deriving DecidableEq, Repr

/-- The key-value TTL store: an association list of key, value and
optional TTL (in seconds).  Keys are unique by construction (writes
remove the previous binding first). -/
abbrev Store := List (String × RVal × Option Nat)

/-- Lookup of a key's value and TTL. -/
def sfind : Store → String → Option (RVal × Option Nat)
  | [], _ => none
  | (k', v, t) :: rest, k => if k' = k then some (v, t) else sfind rest k

/-- Remove every binding of a key. -/
def sremove : Store → String → Store
  | [], _ => []
  | e :: rest, k => if e.1 = k then sremove rest k else e :: sremove rest k

/-- Bind a key to a value and TTL, replacing any previous binding. -/
def sset (st : Store) (k : String) (v : RVal) (t : Option Nat) : Store :=
  (k, v, t) :: sremove st k

/-- Redis GET restricted to string values (attachment payload reads). -/
def rgetStr (st : Store) (k : String) : Option String :=
  match sfind st k with
  | some (.str s, _) => some s
  | _ => none

/-- Redis GET of a message record key; the read path JSON-parses the
stored string back into the record, modelled directly. -/
def rgetMsg (st : Store) (k : String) : Option Msg :=
  match sfind st k with
  | some (.msg m, _) => some m
  | _ => none

/-- Redis SET with EX: write value with a fresh TTL. -/
def rsetex (st : Store) (k : String) (v : RVal) (t : Nat) : Store :=
  sset st k v (some t)

/-- Redis LPUSH: prepend to the list at the key, creating it (with no
TTL) when absent.  On a non-list value Redis raises WRONGTYPE; the key
namespaces used by the engine keep that case unreachable, and it is
modelled as leaving the store unchanged. -/
def rlpush (st : Store) (k : String) (v : String) : Store :=
  match sfind st k with
  | some (.list l, t) => sset st k (.list (v :: l)) t
  | none => sset st k (.list [v]) none
  | some _ => st

/-- Normalize a Redis list index: negative indices count from the end. -/
def normIdx (n : Nat) (i : Int) : Int :=
  if i < 0 then (n : Int) + i else i

/-- The inclusive index range `[a, b]` of a list, Redis style. -/
def listSlice (l : List String) (a b : Int) : List String :=
  let n : Int := l.length
  let s := max (normIdx l.length a) 0
  let e := min (normIdx l.length b) (n - 1)
  if s > e then [] else (l.drop s.toNat).take (e - s + 1).toNat

/-- Redis LTRIM: keep the inclusive range; when the result is empty the
key is removed (an empty list never exists in Redis). -/
def rltrim (st : Store) (k : String) (a b : Int) : Store :=
  match sfind st k with
  | some (.list l, t) =>
    let l' := listSlice l a b
    if l' = [] then sremove st k else sset st k (.list l') t
  | _ => st

/-- Redis LRANGE: the inclusive range of the list, `[]` when absent. -/
def rlrange (st : Store) (k : String) (a b : Int) : List String :=
  match sfind st k with
  | some (.list l, _) => listSlice l a b
  | _ => []

/-- Redis EXPIRE: reset the TTL of an existing key; no-op when absent. -/
def rexpire (st : Store) (k : String) (t : Nat) : Store :=
  match sfind st k with
  | some (v, _) => sset st k v (some t)
  | none => st

/-- Redis DEL of one key. -/
def rdel (st : Store) (k : String) : Store := sremove st k

/-- The TTL currently attached to a key (`some` only if the key exists
and carries a TTL). -/
def keyTtl (st : Store) (k : String) : Option Nat :=
  match sfind st k with
  | some (_, t) => t
  | none => none

/-- Store operations as issued by the handlers, in source order. -/
inductive Op : Type where
  | get (k : String)
  | setex (k : String) (v : RVal) (t : Nat)
  | lpush (k : String) (v : String)
  | ltrim (k : String) (a b : Int)
  | lrange (k : String) (a b : Int)
  | expire (k : String) (t : Nat)
  | del (k : String)
  | mdel (ks : List String)
deriving DecidableEq, Repr

/-- Effect of one operation on the store (reads leave it unchanged). -/
def execOp (st : Store) : Op → Store
  | .get _ => st
  | .lrange _ _ _ => st
  | .setex k v t => rsetex st k v t
  | .lpush k v => rlpush st k v
  | .ltrim k a b => rltrim st k a b
  | .expire k t => rexpire st k t
  | .del k => rdel st k
  | .mdel ks => ks.foldl rdel st

/-- Effect of an operation sequence, first to last. -/
def execOps (st : Store) (ops : List Op) : Store := ops.foldl execOp st

/-- Whether an operation writes to the store. -/
def isWrite : Op → Bool
  | .get _ => false
  | .lrange _ _ _ => false
  | _ => true

/-- Whether an operation writes to the given key. -/
def opTouches (op : Op) (k : String) : Bool :=
  match op with
  | .get _ => false
  | .lrange _ _ _ => false
  | .setex k' _ _ => k' = k
  | .lpush k' _ => k' = k
  | .ltrim k' _ _ => k' = k
  | .expire k' _ => k' = k
  | .del k' => k' = k
  | .mdel ks => decide (k ∈ ks)

/-! Base64, as performed by `Buffer.toString("base64")` on write and
`Buffer.from(s, "base64")` on read.  Bytes are naturals below 256. -/

/-- The base64 alphabet. -/
def b64Alphabet : List Char :=
  "ABCDEFGHIJKLMNOPQRSTUVWXYZabcdefghijklmnopqrstuvwxyz0123456789+/".toList

/-- Character for a 6-bit value. -/
def b64chr (n : Nat) : Char := b64Alphabet.getD n '?'

/-- Base64 encoding of a byte sequence, with `=` padding. -/
def b64encode : List Nat → List Char
  | [] => []
  | [a] => [b64chr (a / 4), b64chr (a % 4 * 16), '=', '=']
  | [a, b] => [b64chr (a / 4), b64chr (a % 4 * 16 + b / 16), b64chr (b % 16 * 4), '=']
  | a :: b :: c :: rest =>
    b64chr (a / 4) :: b64chr (a % 4 * 16 + b / 16) ::
      b64chr (b % 16 * 4 + c / 64) :: b64chr (c % 64) :: b64encode rest

/-- The 6-bit value of a base64 character (`=` and unknown characters
decode as 0, matching lenient decoders). -/
def b64val (c : Char) : Nat :=
  if 'A' ≤ c ∧ c ≤ 'Z' then c.toNat - 65
  else if 'a' ≤ c ∧ c ≤ 'z' then c.toNat - 71
  else if '0' ≤ c ∧ c ≤ '9' then c.toNat + 4
  else if c = '+' then 62
  else if c = '/' then 63
  else 0

/-- Decode full 4-character groups into 3 bytes each. -/
def b64decodeCore : List Char → List Nat
  | c1 :: c2 :: c3 :: c4 :: rest =>
    (b64val c1 * 4 + b64val c2 / 16) ::
      (b64val c2 % 16 * 16 + b64val c3 / 4) ::
      (b64val c3 % 4 * 64 + b64val c4) :: b64decodeCore rest
  | _ => []

/-- Base64 decoding: decode the groups, then drop the bytes accounted
for by `=` padding characters. -/
def b64decode (s : List Char) : List Nat :=
  let core := b64decodeCore s
  core.take (core.length - s.count '=')

/-! Helpers mirroring the JavaScript string primitives the handlers use.
`String.trim`, `String.toLowerCase`, `String.includes` and
`String.split` are modelled over the character list of the string. -/

/-- JS `||` on an optional string: an absent or empty value falls back. -/
def jsOrStr (a : Option String) (b : String) : String :=
  match a with
  | some s => if s = "" then b else s
  | none => b

/-- JS `||` on two strings (empty is falsy). -/
def jsOr2 (a b : String) : String := if a = "" then b else a

/-- JS `||` on an optional number: an absent or zero value falls back. -/
def jsOrNat (a : Option Nat) (b : Nat) : Nat :=
  match a with
  | some n => if n = 0 then b else n
  | none => b

/-- Model of JS `String.prototype.trim`. -/
def jsTrim (s : String) : String :=
  (((s.toList.dropWhile Char.isWhitespace).reverse.dropWhile
      Char.isWhitespace).reverse).asString

/-- Model of JS `String.prototype.toLowerCase` (ASCII range). -/
def jsLower (s : String) : String := (s.toList.map Char.toLower).asString

/-- Model of JS `String.prototype.includes("@")`. -/
def jsHasAt (s : String) : Bool := s.toList.contains '@'

/-- Split a character list on a separator, JS `String.prototype.split`
style: `"" ↦ [""]`, `"@" ↦ ["", ""]`. -/
def splitOnChar (sep : Char) : List Char → List (List Char)
  | [] => [[]]
  | c :: rest =>
    let r := splitOnChar sep rest
    if c = sep then [] :: r
    else
      match r with
      | h :: t => (c :: h) :: t
      | [] => [[c]]

/-- JS `to.split("@")[0]`: the part before the first `@` (the whole
string when there is no `@`). -/
def localPart (s : String) : String :=
  ((splitOnChar '@' s.toList).headD []).asString

/-- The test of the address regex `^[^@]+@[^@]+\.[^@]+$` used by the
push and test-push guards: exactly one `@`, nonempty local and domain
parts, and a `.` in the domain that is neither first nor last. -/
def jsEmailTest (s : String) : Bool :=
  match splitOnChar '@' s.toList with
  | [a, b] => !a.isEmpty && !b.isEmpty && ((b.drop 1).dropLast.contains '.')
  | _ => false

/-- Decimal rendering of a natural number, as JS string interpolation of
an integer index performs. -/
def decStr (n : Nat) : String :=
  if n = 0 then "0" else ((Nat.digits 10 n).reverse.map Nat.digitChar).asString

/-! Key templates of the server variants. -/

/-- Main variant mailbox directory key: `inbox:${local}`. -/
def inboxKey (lcl : String) : String := "inbox:" ++ lcl

/-- Main variant message record key: `msg:${id}`. -/
def messageKey (id : String) : String := "msg:" ++ id

/-- Main variant attachment payload key: `att:${msgId}:${idx}`. -/
def attachKey (msgId : String) (idx : Nat) : String :=
  "att:" ++ msgId ++ ":" ++ decStr idx

/-- First-variant attachment key: `att:${attId}`. -/
def v1attKey (attId : String) : String := "att:" ++ attId

/-- part_001 mailbox key: `mailbox:${email.toLowerCase()}`. -/
def p1mailboxKey (email : String) : String := "mailbox:" ++ jsLower email

/-- part_001 message key: `message:${id}`. -/
def p1messageKey (id : String) : String := "message:" ++ id

/-- part_005 mailbox key: `mailbox:${addr.toLowerCase()}`. -/
def p5mailboxKey (addr : String) : String := "mailbox:" ++ jsLower addr

/-! Configuration constants (source defaults). -/

/-- Directory TTL window in seconds (`INBOX_TTL`, default 600). -/
def INBOX_TTL : Nat := 600

/-- Message record TTL window in seconds (`MSG_TTL`, default 600). -/
def MSG_TTL : Nat := 600

/-- Attachment inline-storage ceiling (`MAX_ATTACH_BYTES`, default 2MB). -/
def MAX_ATTACH_BYTES : Nat := 2 * 1024 * 1024

/-- Domain suffix for generated addresses. -/
def DOMAIN : String := "temp-mail.gr"

/-- Base URL prepended to rewritten inline-image links (default empty). -/
def PUBLIC_API_BASE : String := ""

/-! Ingestion inputs and the attachment side store. -/

/-- One attachment as produced by the external MIME parser: optional
filename, content type, declared size, payload bytes, disposition and
content id. -/
structure AttachIn where
  filename : Option String
  contentType : Option String
  declaredSize : Option Nat
  content : Option (List Nat)
  contentDisposition : Option String
  cid : Option String
deriving DecidableEq, Repr

/-- Attachment size: `a.size || (a.content?.length || 0)`. -/
def attSize (a : AttachIn) : Nat :=
  jsOrNat a.declaredSize (jsOrNat (a.content.map List.length) 0)

/-- Whether the payload is persisted: `a.content && size > 0 && size <=
MAX_ATTACH_BYTES` (a Buffer is truthy even when empty, so only presence
is tested). -/
def attStores (a : AttachIn) : Bool :=
  a.content.isSome && decide (0 < attSize a) && decide (attSize a ≤ MAX_ATTACH_BYTES)

/-- Metadata entry built for attachment `i` by `storeAttachments`. -/
def mkAttachMeta (i : Nat) (a : AttachIn) : AttachMeta :=
  { idx := i
    filename := jsOrStr a.filename ("attachment-" ++ decStr i)
    contentType := jsOrStr a.contentType "application/octet-stream"
    size := attSize a
    disposition := jsOrStr a.contentDisposition "attachment"
    cid := a.cid
    stored := if attStores a then "redis" else "skipped" }

/-- The metadata list returned by `storeAttachments`. -/
def storeAttachmentsMetas (atts : List AttachIn) : List AttachMeta :=
  atts.enum.map (fun p => mkAttachMeta p.1 p.2)

/-- The store writes issued by `storeAttachments` from index `n` on:
one `SET att:${msgId}:${i} <base64> EX MSG_TTL` per stored attachment. -/
def storeAttachmentsOpsFrom (msgId : String) (n : Nat) : List AttachIn → List Op
  | [] => []
  | a :: rest =>
    (if attStores a then
      [Op.setex (attachKey msgId n) (.str ((b64encode (a.content.getD [])).asString)) MSG_TTL]
    else []) ++ storeAttachmentsOpsFrom msgId (n + 1) rest

/-- The store writes issued by `storeAttachments`. -/
def storeAttachmentsOps (msgId : String) (atts : List AttachIn) : List Op :=
  storeAttachmentsOpsFrom msgId 0 atts

/-- Hex digit character. -/
def hexDigit (n : Nat) : Char := "0123456789ABCDEF".toList.getD n '0'

/-- Whether a character survives `encodeURIComponent` unescaped. -/
def uriUnreserved (c : Char) : Bool :=
  c.isAlphanum || c = '-' || c = '_' || c = '.' || c = '!' || c = '~' ||
    c = '*' || c.toNat = 39 || c = '(' || c = ')'

/-- Model of JS `encodeURIComponent` (ASCII range; message ids are
alphanumeric). -/
def encodeURIComponent (s : String) : String :=
  ((s.toList.map fun c =>
    if uriUnreserved c then [c]
    else ['%', hexDigit (c.toNat / 16 % 16), hexDigit (c.toNat % 16)]).flatten).asString

/-- Drop `<` and `>` from a content id, as `cid.replace(/[<>]/g, "")`. -/
def stripAngles (s : String) : String :=
  (s.toList.filter fun c => !(c = '<' || c = '>')).asString

/-- Drop trailing slashes, as `baseUrl.replace(/\/+$/, "")`. -/
def stripTrailingSlashes (s : String) : String :=
  ((s.toList.reverse.dropWhile (· = '/')).reverse).asString

/-- Rewrite `cid:` references in the HTML body to the attachment
endpoint (`resolveCidHtml`); every attachment carrying a content id is
rewritten, stored or not. -/
def resolveCidHtml (html : String) (msgId : String) (atts : List AttachMeta)
    (baseUrl : String) : String :=
  if html = "" then ""
  else
    let pfx := if baseUrl = "" then "" else stripTrailingSlashes baseUrl
    atts.foldl (fun out a =>
      match a.cid with
      | none => out
      | some c =>
        if c = "" then out
        else out.replace ("cid:" ++ stripAngles c)
          (pfx ++ "/attachment/" ++ encodeURIComponent msgId ++ "/" ++ decStr a.idx)) html

/-- Ingestion input: the material one entry point receives for one
message.  `toRaw` is the recipient address as the entry point sees it;
`msgId` is the freshly generated message id and `attIds` the generated
per-attachment ids (randomness modelled as parameters). -/
structure In where
  toRaw : String
  msgFrom : String
  subject : String
  text : String
  html : String
  raw : String
  headers : List (String × String)
  receivedAt : String
  date : String
  msgId : String
  atts : List AttachIn
  attIds : List String
deriving DecidableEq, Repr

/-! The write sequences of the ingestion paths, one per server variant,
exactly in source order. -/

/-- Main variant `storeMessage` recipient: `(to || "").toLowerCase().trim()`. -/
def v2to (i : In) : String := jsTrim (jsLower i.toRaw)

/-- Main variant local part: `toLc.split("@")[0]`. -/
def v2local (i : In) : String := localPart (v2to i)

/-- The canonical record written by the main variant `storeMessage`. -/
def v2record (i : In) : Msg :=
  let metas := storeAttachmentsMetas i.atts
  { id := i.msgId, toAddr := v2to i, msgFrom := i.msgFrom, subject := i.subject
    text := i.text
    html := resolveCidHtml i.html i.msgId metas PUBLIC_API_BASE
    raw := i.raw, headers := i.headers, received_at := i.receivedAt, date := ""
    attachments := metas }

/-- Main variant `storeMessage` write sequence: attachment payloads,
then `SET msg:${id} EX`, then `LPUSH` / `LTRIM 0 199` / `EXPIRE` on the
mailbox directory. -/
def storeMessageOps (i : In) : List Op :=
  storeAttachmentsOps i.msgId i.atts ++
    [ .setex (messageKey i.msgId) (.msg (v2record i)) MSG_TTL,
      .lpush (inboxKey (v2local i)) i.msgId,
      .ltrim (inboxKey (v2local i)) 0 199,
      .expire (inboxKey (v2local i)) INBOX_TTL ]

/-- First-variant recipient: `String(req.body.to || "").trim().toLowerCase()`. -/
def v1to (i : In) : String := jsLower (jsTrim i.toRaw)

/-- First-variant local part. -/
def v1local (i : In) : String := localPart (v1to i)

/-- First-variant message record (its `local`/`email`/`preview` fields
and object-shaped attachment metas are normalized to the canonical
record; no claim reads first-variant records). -/
def v1record (i : In) : Msg :=
  { id := i.msgId, toAddr := v1local i ++ "@" ++ DOMAIN, msgFrom := i.msgFrom
    subject := i.subject, text := i.text, html := i.html, raw := ""
    headers := i.headers, received_at := i.receivedAt, date := ""
    attachments := [] }

/-- First-variant attachment writes: every parsed attachment is stored
under `att:${attId}` regardless of size (the stored `{ b64, meta }`
object is modelled by its payload; no claim reads it). -/
def v1attOps (i : In) : List Op :=
  (i.atts.zip i.attIds).map fun p =>
    Op.setex (v1attKey p.2) (.str ((b64encode (p.1.content.getD [])).asString)) MSG_TTL

/-- First-variant `/push` write sequence: attachments, `SET msg:${id}`,
`LPUSH inbox:${local}`, `EXPIRE` — and no `LTRIM`. -/
def v1PushOps (i : In) : List Op :=
  v1attOps i ++
    [ .setex (messageKey i.msgId) (.msg (v1record i)) MSG_TTL,
      .lpush (inboxKey (v1local i)) i.msgId,
      .expire (inboxKey (v1local i)) INBOX_TTL ]

/-- Third-variant recipient: `String(b.to || ...).toLowerCase()`. -/
def v3to (i : In) : String := jsLower i.toRaw

/-- Third-variant local part. -/
def v3local (i : In) : String := localPart (v3to i)

/-- Third-variant `/push` record (inline `data_b64` attachment objects
are elided; no claim reads them). -/
def v3record (i : In) : Msg :=
  { id := i.msgId, toAddr := v3to i, msgFrom := i.msgFrom, subject := i.subject
    text := i.text, html := i.html, raw := "", headers := i.headers
    received_at := i.receivedAt, date := "", attachments := [] }

/-- Third-variant `/push` write sequence. -/
def v3PushOps (i : In) : List Op :=
  [ .setex (messageKey i.msgId) (.msg (v3record i)) MSG_TTL,
    .lpush (inboxKey (v3local i)) i.msgId,
    .ltrim (inboxKey (v3local i)) 0 199,
    .expire (inboxKey (v3local i)) INBOX_TTL ]

/-- Third-variant `/_test/push` record. -/
def v3TestRecord (i : In) : Msg :=
  { id := i.msgId, toAddr := v3to i, msgFrom := "tester@example.com"
    subject := i.subject, text := i.text, html := "<p>" ++ i.text ++ "</p>"
    raw := "", headers := [], received_at := i.receivedAt, date := ""
    attachments := [] }

/-- Third-variant `/_test/push` write sequence. -/
def v3TestPushOps (i : In) : List Op :=
  [ .setex (messageKey i.msgId) (.msg (v3TestRecord i)) MSG_TTL,
    .lpush (inboxKey (v3local i)) i.msgId,
    .ltrim (inboxKey (v3local i)) 0 199,
    .expire (inboxKey (v3local i)) INBOX_TTL ]

/-- part_001 recipient: `(req.body.to || "test@example.com").toLowerCase()`. -/
def p1to (i : In) : String := jsLower (jsOr2 i.toRaw "test@example.com")

/-- part_001 test-push record. -/
def p1record (i : In) : Msg :=
  { id := i.msgId, toAddr := p1to i
    msgFrom := jsOr2 i.msgFrom "sender@example.com"
    subject := jsOr2 i.subject "Test message"
    text := jsOr2 i.text "Hello from _test/push", html := i.html, raw := ""
    headers := [], received_at := "", date := i.date, attachments := [] }

/-- part_001 `storeMessage` write sequence: `SET message:${id}`, then
`LPUSH mailbox:${email}` / `LTRIM 0 199` / `EXPIRE`. -/
def p1StoreOps (i : In) : List Op :=
  [ .setex (p1messageKey i.msgId) (.msg (p1record i)) MSG_TTL,
    .lpush (p1mailboxKey (p1to i)) i.msgId,
    .ltrim (p1mailboxKey (p1to i)) 0 199,
    .expire (p1mailboxKey (p1to i)) INBOX_TTL ]

/-- part_002 SMTP recipient: parsed address, lowercased. -/
def p2to (i : In) : String := jsLower i.toRaw

/-- part_002 SMTP record. -/
def p2record (i : In) : Msg :=
  { id := i.msgId, toAddr := p2to i, msgFrom := i.msgFrom, subject := i.subject
    text := i.text, html := i.html, raw := "", headers := i.headers
    received_at := i.receivedAt, date := "", attachments := [] }

/-- part_002 SMTP write sequence. -/
def p2SmtpOps (i : In) : List Op :=
  [ .setex (messageKey i.msgId) (.msg (p2record i)) MSG_TTL,
    .lpush (inboxKey (localPart (p2to i))) i.msgId,
    .ltrim (inboxKey (localPart (p2to i))) 0 199,
    .expire (inboxKey (localPart (p2to i))) INBOX_TTL ]

/-- Model of `JSON.stringify(record)` for the part_005 variants that
push the serialized record itself into the mailbox list: an injective
rendering of the record fields (exact JSON escaping is immaterial to
the claims). -/
def encodeRec (m : Msg) : String :=
  String.intercalate "|" [m.id, m.toAddr, m.msgFrom, m.subject, m.text, m.html,
    m.received_at, m.date]

/-- part_005 first-variant recipient, `normalizeEmail`: decoded (the
URI decoding is modelled as already applied), trimmed, lowercased. -/
def p5ato (i : In) : String := jsLower (jsTrim i.toRaw)

/-- part_005 first-variant record. -/
def p5aRecord (i : In) : Msg :=
  { id := i.msgId, toAddr := p5ato i, msgFrom := i.msgFrom, subject := i.subject
    text := i.text, html := i.html, raw := "", headers := i.headers
    received_at := "", date := i.date, attachments := [] }

/-- part_005 first-variant `storeMessage` pipeline, in issue order:
`LPUSH` of the serialized record, `LTRIM 0 199`, `EXPIRE`, then `SET
msg:${id}` — the directory push is issued before the record write. -/
def p5aStoreOps (i : In) : List Op :=
  [ .lpush (p5mailboxKey (p5ato i)) (encodeRec (p5aRecord i)),
    .ltrim (p5mailboxKey (p5ato i)) 0 199,
    .expire (p5mailboxKey (p5ato i)) INBOX_TTL,
    .setex (messageKey i.msgId) (.msg (p5aRecord i)) MSG_TTL ]

/-- part_005 first-variant `/_test/push` (GET) record. -/
def p5aTestRecord (i : In) : Msg :=
  { id := i.msgId, toAddr := p5ato i, msgFrom := "tester@" ++ DOMAIN
    subject := i.subject, text := i.text, html := "", raw := ""
    headers := [("x-dev", "true")], received_at := "", date := i.date
    attachments := [] }

/-- part_005 first-variant `/_test/push` (GET) background pipeline, the
same issue order as its `storeMessage`. -/
def p5aTestGetOps (i : In) : List Op :=
  [ .lpush (p5mailboxKey (p5ato i)) (encodeRec (p5aTestRecord i)),
    .ltrim (p5mailboxKey (p5ato i)) 0 199,
    .expire (p5mailboxKey (p5ato i)) INBOX_TTL,
    .setex (messageKey i.msgId) (.msg (p5aTestRecord i)) MSG_TTL ]

/-- part_005 second-variant `/push` recipient. -/
def p5bto (i : In) : String := jsLower i.toRaw

/-- part_005 second-variant `/push` record. -/
def p5bRecord (i : In) : Msg :=
  { id := i.msgId, toAddr := p5bto i, msgFrom := i.msgFrom, subject := i.subject
    text := i.text, html := i.html, raw := "", headers := i.headers
    received_at := i.receivedAt, date := "", attachments := [] }

/-- part_005 second-variant `/push` write sequence. -/
def p5bPushOps (i : In) : List Op :=
  [ .setex (messageKey i.msgId) (.msg (p5bRecord i)) MSG_TTL,
    .lpush (inboxKey (localPart (p5bto i))) i.msgId,
    .ltrim (inboxKey (localPart (p5bto i))) 0 199,
    .expire (inboxKey (localPart (p5bto i))) INBOX_TTL ]

/-- part_005 second-variant SMTP write sequence (same record shape and
issue order as its `/push`). -/
def p5bSmtpOps (i : In) : List Op := p5bPushOps i

/-- part_005 third-variant SMTP record. -/
def p5cRecord (i : In) : Msg :=
  { id := i.msgId, toAddr := jsLower i.toRaw, msgFrom := i.msgFrom
    subject := i.subject, text := i.text, html := i.html, raw := ""
    headers := i.headers, received_at := "", date := i.date
    attachments := [] }

/-- part_005 third-variant SMTP recipient: parsed address, lowercased. -/
def p5cto (i : In) : String := jsLower i.toRaw

/-- part_005 third-variant SMTP write sequence: `LPUSH` of the
serialized record and `LTRIM 0 199` only — no record key and no
`EXPIRE`. -/
def p5cSmtpOps (i : In) : List Op :=
  [ .lpush ("mailbox:" ++ p5cto i) (encodeRec (p5cRecord i)),
    .ltrim ("mailbox:" ++ p5cto i) 0 199 ]

/-- The ingestion paths of the corpus. -/
inductive IngestPath : Type where
  | v1Push | v2Store | v3Push | v3TestPush
  | p1Store | p2Smtp
  | p5aStore | p5aTestGet | p5bPush | p5bSmtp | p5cSmtp
deriving DecidableEq, Repr

/-- The store-write sequence a successful ingestion on each path issues. -/
def ingestOps : IngestPath → In → List Op
  | .v1Push, i => v1PushOps i
  | .v2Store, i => storeMessageOps i
  | .v3Push, i => v3PushOps i
  | .v3TestPush, i => v3TestPushOps i
  | .p1Store, i => p1StoreOps i
  | .p2Smtp, i => p2SmtpOps i
  | .p5aStore, i => p5aStoreOps i
  | .p5aTestGet, i => p5aTestGetOps i
  | .p5bPush, i => p5bPushOps i
  | .p5bSmtp, i => p5bSmtpOps i
  | .p5cSmtp, i => p5cSmtpOps i

/-- The mailbox directory key each path appends to. -/
def dirKeyOf : IngestPath → In → String
  | .v1Push, i => inboxKey (v1local i)
  | .v2Store, i => inboxKey (v2local i)
  | .v3Push, i => inboxKey (v3local i)
  | .v3TestPush, i => inboxKey (v3local i)
  | .p1Store, i => p1mailboxKey (p1to i)
  | .p2Smtp, i => inboxKey (localPart (p2to i))
  | .p5aStore, i => p5mailboxKey (p5ato i)
  | .p5aTestGet, i => p5mailboxKey (p5ato i)
  | .p5bPush, i => inboxKey (localPart (p5bto i))
  | .p5bSmtp, i => inboxKey (localPart (p5bto i))
  | .p5cSmtp, i => "mailbox:" ++ p5cto i

/-- The element each path pushes into the directory list: the message
id, or the serialized record for the part_005 record-in-list variants. -/
def dirElemOf : IngestPath → In → String
  | .p5aStore, i => encodeRec (p5aRecord i)
  | .p5aTestGet, i => encodeRec (p5aTestRecord i)
  | .p5cSmtp, i => encodeRec (p5cRecord i)
  | _, i => i.msgId

/-- Whether the path trims the directory to 200 entries (all but the
first-variant `/push`). -/
def trimsDir : IngestPath → Bool
  | .v1Push => false
  | _ => true

/-- Whether the path resets the directory TTL (all but the third
part_005 SMTP variant). -/
def setsInboxTtl : IngestPath → Bool
  | .p5cSmtp => false
  | _ => true

/-- Whether the path issues the record write before the directory push
(false for the pipelined part_005 first variant, which pushes first,
and for the third part_005 SMTP variant, which writes no record key). -/
def recordFirst : IngestPath → Bool
  | .p5aStore => false
  | .p5aTestGet => false
  | .p5cSmtp => false
  | _ => true

/-- The directory-list transformation one ingestion performs. -/
def stepList (trims : Bool) (e : String) (l : List String) : List String :=
  if trims then (e :: l).take 200 else e :: l

/-- Repeated ingestion on one path. -/
def foldIngest (p : IngestPath) (st : Store) (inputs : List In) : Store :=
  inputs.foldl (fun s i => execOps s (ingestOps p i)) st

/-! HTTP ingestion entry points with their recipient guards.  Each
returns the response and the store operations issued (empty on
rejection). -/

/-- Outcome of an ingestion request. -/
inductive IngestResp : Type where
  | ok (id : String)
  | clientErr (status : Nat) (err : String)
deriving DecidableEq, Repr

/-- Whether the ingestion succeeded. -/
def IngestResp.isOk : IngestResp → Bool
  | .ok _ => true
  | _ => false

/-- `/incoming-email` (main variant, JSON from the Worker): rejects only
an empty `to` or `from`, then calls `storeMessage` with no attachments. -/
def incomingEmail (i : In) : IngestResp × List Op :=
  if i.toRaw = "" ∨ i.msgFrom = "" then (.clientErr 400 "missing_to_or_from", [])
  else (.ok i.msgId, storeMessageOps { i with atts := [] })

/-- `/cloudflare/inbound` (main variant, raw MIME): lowercases the
parsed recipient and rejects it unless it contains `@`. -/
def cloudflareInbound (i : In) : IngestResp × List Op :=
  let toLc := jsLower i.toRaw
  if !(jsHasAt toLc) then (.clientErr 400 "missing_to", [])
  else (.ok i.msgId, storeMessageOps { i with toRaw := toLc })

/-- `/push` (main variant, multipart): requires a raw body, resolves
the recipient (body field or parsed address, lowercased and trimmed)
and rejects it unless it contains `@`. -/
def v2push (i : In) : IngestResp × List Op :=
  if i.raw = "" then (.clientErr 400 "missing_raw", [])
  else
    let toLc := jsTrim (jsLower i.toRaw)
    if !(jsHasAt toLc) then (.clientErr 400 "invalid_to", [])
    else (.ok i.msgId, storeMessageOps { i with toRaw := toLc })

/-- `/mailgun/inbound` (main variant, form data): lowercases the
recipient and rejects it unless it contains `@`; no attachments. -/
def mailgunInbound (i : In) : IngestResp × List Op :=
  let toLc := jsLower i.toRaw
  if !(jsHasAt toLc) then (.clientErr 400 "missing_recipient", [])
  else (.ok i.msgId, storeMessageOps { i with toRaw := toLc, atts := [] })

/-- `/_test/push` (third variant): validates the lowercased recipient
against the address regex. -/
def v3TestPush (i : In) : IngestResp × List Op :=
  if !(jsEmailTest (v3to i)) then (.clientErr 400 "Invalid to address", [])
  else (.ok i.msgId, v3TestPushOps i)

/-- `/push` (part_005 second variant, JSON): validates the lowercased
recipient against the address regex. -/
def p5bPushEntry (i : In) : IngestResp × List Op :=
  if !(jsEmailTest (p5bto i)) then (.clientErr 400 "invalid_to", [])
  else (.ok i.msgId, p5bPushOps i)

/-- `/push` (first variant, raw MIME): rejects only when the local part
of the recipient is empty (`to.split("@")[0] || ""` falsy). -/
def v1PushEntry (i : In) : IngestResp × List Op :=
  if v1local i = "" then (.clientErr 400 "bad to", [])
  else (.ok i.msgId, v1PushOps i)

/-- The entry points whose guard validates the recipient address shape. -/
inductive GuardedIngest : Type where
  | cloudflareE | mailgunE | v2pushE | v3TestPushE | p5bPushE
deriving DecidableEq, Repr

/-- Dispatch a guarded entry point. -/
def runGuarded : GuardedIngest → In → IngestResp × List Op
  | .cloudflareE, i => cloudflareInbound i
  | .mailgunE, i => mailgunInbound i
  | .v2pushE, i => v2push i
  | .v3TestPushE, i => v3TestPush i
  | .p5bPushE, i => p5bPushEntry i

/-- The normalized recipient string each guarded entry point checks. -/
def guardedTo : GuardedIngest → In → String
  | .cloudflareE, i => jsLower i.toRaw
  | .mailgunE, i => jsLower i.toRaw
  | .v2pushE, i => jsTrim (jsLower i.toRaw)
  | .v3TestPushE, i => v3to i
  | .p5bPushE, i => p5bto i

/-! Read side: inbox listing, attachment download, create and delete. -/

/-- `ListMessageIds(local, limit)` (spec §4.1): the reader's
`LRANGE key 0 (limit-1)`, empty when the key is absent or expired. -/
def ListMessageIds (st : Store) (key : String) (limit : Nat) : List String :=
  rlrange st key 0 ((limit : Int) - 1)

/-- Inbox summary row (`{ id, from, subject, preview, received_at }`). -/
structure Summary where
  id : String
  msgFrom : String
  subject : String
  preview : String
  received_at : String
deriving DecidableEq, Repr

/-- Summary projection of a record: preview is the first 160 characters
of `m.text || m.raw || ""`; the timestamp is `m.received_at || m.date ||
nowISO()` with the clock passed as `now`. -/
def summarize (now : String) (m : Msg) : Summary :=
  { id := m.id, msgFrom := m.msgFrom, subject := m.subject
    preview := ((jsOr2 m.text m.raw).toList.take 160).asString
    received_at := jsOr2 m.received_at (jsOr2 m.date now) }

/-- Outcome of an inbox listing. -/
inductive InboxResp : Type where
  | ok (messages : List Summary)
  | badRequest (err : String)
deriving DecidableEq, Repr

/-- The listing loop of `handleInbox` (main variant): skip the
`"__init__"` placeholder, skip ids whose record is absent, summarize
the rest in order. -/
def inboxLoop (st : Store) (now : String) : List String → List Summary
  | [] => []
  | id :: rest =>
    if id = "__init__" then inboxLoop st now rest
    else
      match rgetMsg st (messageKey id) with
      | none => inboxLoop st now rest
      | some m => summarize now m :: inboxLoop st now rest

/-- `GET /inbox/:local` (main variant `handleInbox`): reject an empty
local, `LRANGE inbox:${local} 0 49`, then run the listing loop. -/
def handleInbox (st : Store) (now : String) (lcl : String) : InboxResp :=
  if lcl = "" then .badRequest "missing_local"
  else .ok (inboxLoop st now (rlrange st (inboxKey lcl) 0 49))

/-- `POST /create` (main variant `handleCreate`) store sequence:
`DEL`, `LPUSH "__init__"`, `LTRIM 1 -1`, `EXPIRE INBOX_TTL`. -/
def handleCreateOps (lcl : String) : List Op :=
  [ .del (inboxKey lcl), .lpush (inboxKey lcl) "__init__",
    .ltrim (inboxKey lcl) 1 (-1), .expire (inboxKey lcl) INBOX_TTL ]

/-- `POST /create`: the generated local is a parameter (randomness);
returns `{ email, local, expires_in }` and the updated store. -/
def handleCreate (st : Store) (lcl : String) : (String × String × Nat) × Store :=
  ((lcl ++ "@" ++ DOMAIN, lcl, INBOX_TTL), execOps st (handleCreateOps lcl))

/-- A JS number as `Number(req.params.idx)` yields it: NaN for a
malformed string, otherwise a (possibly negative, possibly fractional,
possibly infinite) numeric value. -/
inductive JsNum : Type where
  | nan
  | inf
  | ninf
  | num (q : ℚ)
deriving DecidableEq, Repr

/-- `Number.isFinite`. -/
def JsNum.isFinite : JsNum → Bool
  | .num _ => true
  | _ => false

/-- Outcome of an attachment download. -/
inductive AttachResp : Type where
  | badRequest (err : String)
  | notFound (err : String)
  | unavailable (err : String)
  | okBytes (data : List Nat) (contentType : String) (filename : String)
deriving DecidableEq, Repr

/-- Filename sanitization: `filename.replace(/[\r\n"]/g, "_")`. -/
def safeName (s : String) : String :=
  (s.toList.map fun c => if c = '\r' ∨ c = '\n' ∨ c = '"' then '_' else c).asString

/-- The store-reading part of `handleAttachment`, reached with a finite
nonnegative index: fetch the record, locate the metadata whose `idx`
equals the requested number, refuse with 413 when not stored in redis,
else fetch and decode the payload.  The second component lists the
store reads issued. -/
def handleAttachmentCore (st : Store) (id : String) (q : ℚ) : AttachResp × List Op :=
  match rgetMsg st (messageKey id) with
  | none => (.notFound "not_found", [.get (messageKey id)])
  | some m =>
    match m.attachments.find? (fun x => decide ((x.idx : ℚ) = q)) with
    | none => (.notFound "attachment_not_found", [.get (messageKey id)])
    | some meta =>
      if meta.stored ≠ "redis" then
        (.unavailable "attachment_not_stored_here", [.get (messageKey id)])
      else
        match rgetStr st (attachKey id meta.idx) with
        | none =>
          (.notFound "attachment_data_missing",
            [.get (messageKey id), .get (attachKey id meta.idx)])
        | some b64 =>
          if b64 = "" then
            (.notFound "attachment_data_missing",
              [.get (messageKey id), .get (attachKey id meta.idx)])
          else
            (.okBytes (b64decode b64.toList)
                (jsOr2 meta.contentType "application/octet-stream")
                (safeName (jsOr2 meta.filename "file")),
              [.get (messageKey id), .get (attachKey id meta.idx)])

/-- `GET /attachment/:id/:idx` (main variant `handleAttachment`): trim
the id and reject a blank one; reject a non-finite or negative index
before any store access; then run the core. -/
def handleAttachment (st : Store) (idParam : String) (idxParam : JsNum) :
    AttachResp × List Op :=
  let id := jsTrim idParam
  if id = "" then (.badRequest "missing_id", [])
  else
    match idxParam with
    | .num q =>
      if q < 0 then (.badRequest "invalid_idx", []) else handleAttachmentCore st id q
    | _ => (.badRequest "invalid_idx", [])

/-- `DELETE /messages/:mailbox` (part_001): read the whole directory,
delete every referenced record key, then delete the directory key. -/
def p1DeleteOps (st : Store) (mb : String) : List Op :=
  let key := p1mailboxKey mb
  let ids := rlrange st key 0 (-1)
  [Op.lrange key 0 (-1)] ++
    (if ids.isEmpty then [] else [Op.mdel (ids.map p1messageKey)]) ++
    [Op.del key]

/-- The store after the part_001 mailbox delete. -/
def p1Delete (st : Store) (mb : String) : Store := execOps st (p1DeleteOps st mb)

/-! Record-before-append scanner for the write ordering of §4.3. -/

/-- Whether an operation is the message-record write (a `SET` under the
`msg:` or `message:` namespace). -/
def isMsgSet (op : Op) : Bool :=
  match op with
  | .setex k _ _ => List.isPrefixOf "msg:".toList k.toList ||
      List.isPrefixOf "message:".toList k.toList
  | _ => false

/-- Whether an operation is the directory push (an `LPUSH` under the
`inbox:` or `mailbox:` namespace). -/
def isDirPush (op : Op) : Bool :=
  match op with
  | .lpush k _ => List.isPrefixOf "inbox:".toList k.toList ||
      List.isPrefixOf "mailbox:".toList k.toList
  | _ => false

/-- Scanner: every directory push must be preceded by a record write
(`seen` tracks whether one was issued). -/
def goPTA : List Op → Bool → Bool
  | [], _ => true
  | op :: rest, seen =>
    if isDirPush op then seen && goPTA rest seen
    else goPTA rest (seen || isMsgSet op)

/-- Within one write sequence, the record write is issued before every
directory push. -/
def putThenAppend (ops : List Op) : Bool := goPTA ops false

/-- The directory list at a key (empty when absent). -/
def dirlist (st : Store) (k : String) : List String :=
  match sfind st k with
  | some (.list l, _) => l
  | _ => []

/-- Whether a key is absent or holds a list (so that `LPUSH` succeeds;
the engine's key namespaces keep non-list values away from directory
keys). -/
def keyIsListish (st : Store) (k : String) : Bool :=
  match sfind st k with
  | some (.list _, _) => true
  | none => true
  | _ => false

/-! Concrete fixtures used by the witnesses and counterexamples. -/

/-- A well-formed ingestion input addressed to `abc@temp-mail.gr`. -/
def inA : In :=
  { toRaw := "abc@temp-mail.gr", msgFrom := "x@y.z", subject := "Hello"
    text := "Hi there", html := "", raw := "r", headers := [], receivedAt := "t0"
    date := "", msgId := "m1", atts := [], attIds := [] }

/-- An ingestion input whose recipient lacks an `@`. -/
def inBad : In :=
  { toRaw := "not-an-email", msgFrom := "someone@x.y", subject := "s"
    text := "t", html := "", raw := "r", headers := [], receivedAt := "t0"
    date := "", msgId := "m1", atts := [], attIds := [] }

/-- An attachment under the 2MB ceiling (3 bytes). -/
def attSmall : AttachIn :=
  { filename := some "a.bin", contentType := some "application/pdf"
    declaredSize := none, content := some [7, 200, 33]
    contentDisposition := none, cid := none }

/-- An attachment over the 2MB ceiling (declared 5MB). -/
def attBig : AttachIn :=
  { filename := some "big.bin", contentType := none
    declaredSize := some (5 * 1024 * 1024), content := some [1]
    contentDisposition := none, cid := none }

/-- An attachment with an empty payload (size 0, within the ceiling). -/
def attEmpty : AttachIn :=
  { filename := some "e.bin", contentType := none, declaredSize := none
    content := some [], contentDisposition := none, cid := none }

/-- An ingestion input carrying the small and the big attachment. -/
def inAtt : In :=
  { toRaw := "abc@temp-mail.gr", msgFrom := "x@y.z", subject := "att"
    text := "body", html := "", raw := "r", headers := [], receivedAt := "t0"
    date := "", msgId := "m1", atts := [attSmall, attBig], attIds := ["a1", "a2"] }

/-- An ingestion input carrying only the empty attachment. -/
def inEmpty : In :=
  { toRaw := "abc@temp-mail.gr", msgFrom := "x@y.z", subject := "att"
    text := "body", html := "", raw := "r", headers := [], receivedAt := "t0"
    date := "", msgId := "m1", atts := [attEmpty], attIds := ["a1"] }

/-- A record for the inbox fixtures. -/
def mKept : Msg :=
  { id := "kept", toAddr := "abc@temp-mail.gr", msgFrom := "f@g.h"
    subject := "s", text := "hello world", html := "", raw := ""
    headers := [], received_at := "t1", date := "", attachments := [] }

/-- A store whose directory for `abc` holds a dangling id `gone` (no
record) ahead of a resolvable id `kept`. -/
def stDangling : Store :=
  [ (inboxKey "abc", .list ["gone", "kept"], some 600),
    (messageKey "kept", .msg mKept, some 600) ]

/-- A store whose directory for `abc` holds the `__init__` placeholder
ahead of a resolvable id `kept`. -/
def stInit : Store :=
  [ (inboxKey "abc", .list ["__init__", "kept"], some 600),
    (messageKey "kept", .msg mKept, some 600) ]

/-- A part_005 third-variant mailbox with 5 seconds of TTL left. -/
def stStale : Store := [("mailbox:abc@x.gr", .list ["old"], some 5)]

/-- An input addressed to the stale part_005 mailbox. -/
def inStale : In :=
  { toRaw := "abc@x.gr", msgFrom := "f", subject := "s", text := "t"
    html := "", raw := "", headers := [], receivedAt := "t0", date := "d0"
    msgId := "m9", atts := [], attIds := [] }

/-- A part_001 store with two listed records and one dangling id. -/
def stP1 : Store :=
  [ (p1mailboxKey "abc@temp-mail.gr", .list ["i1", "i2", "dang"], some 600),
    (p1messageKey "i1", .msg mKept, some 600),
    (p1messageKey "i2", .msg mKept, some 600) ]

/-- A main-variant mailbox with 7 seconds of TTL left. -/
def stStaleInbox : Store := [(inboxKey "abc", .list ["x"], some 7)]

/-! Store-level lemmas. -/

theorem sfind_sremove_self (st : Store) (k : String) : sfind (sremove st k) k = none := by
  induction st with
  | nil => rfl
  | cons e rest ih =>
    rcases e with ⟨k0, v, t⟩
    by_cases he : k0 = k
    · simpa [sremove, he] using ih
    · simpa [sremove, he, sfind] using ih

theorem sfind_sremove_ne (st : Store) (k k' : String) (h : k' ≠ k) :
    sfind (sremove st k') k = sfind st k := by
  induction st with
  | nil => rfl
  | cons e rest ih =>
    rcases e with ⟨k0, v, t⟩
    by_cases he : k0 = k'
    · have hk : k0 ≠ k := by rw [he]; exact h
      simpa [sremove, he, sfind, hk, h] using ih
    · by_cases hk : k0 = k
      · simp [sremove, he, sfind, hk, Ne.symm h]
      · simpa [sremove, he, sfind, hk] using ih

theorem sfind_foldl_rdel (ks : List String) (st : Store) (k : String) (h : k ∉ ks) :
    sfind (ks.foldl rdel st) k = sfind st k := by
  induction ks generalizing st with
  | nil => rfl
  | cons a rest ih =>
    have ha : a ≠ k := fun heq => h (by simp [heq])
    have hrest : k ∉ rest := fun hm => h (by simp [hm])
    simp only [List.foldl_cons]
    rw [ih (rdel st a) hrest]
    simpa [rdel] using sfind_sremove_ne st k a ha

theorem sfind_sset_self (st : Store) (k : String) (v : RVal) (t : Option Nat) :
    sfind (sset st k v t) k = some (v, t) := by
  simp [sset, sfind]

theorem sfind_sset_ne (st : Store) (k k' : String) (v : RVal) (t : Option Nat)
    (h : k' ≠ k) : sfind (sset st k' v t) k = sfind st k := by
  simp [sset, sfind, h]
  exact sfind_sremove_ne st k k' h

theorem execOps_append (st : Store) (xs ys : List Op) :
    execOps st (xs ++ ys) = execOps (execOps st xs) ys := by
  simp [execOps, List.foldl_append]

theorem sfind_execOp_untouched (st : Store) (op : Op) (k : String)
    (h : opTouches op k = false) : sfind (execOp st op) k = sfind st k := by
  cases op with
  | get _ => rfl
  | lrange _ _ _ => rfl
  | setex k' v t =>
    have hk : k' ≠ k := by simpa [opTouches] using h
    simpa [execOp, rsetex] using sfind_sset_ne st k k' v (some t) hk
  | lpush k' v =>
    have hk : k' ≠ k := by simpa [opTouches] using h
    simp only [execOp, rlpush]
    cases hf : sfind st k' with
    | none => simpa using sfind_sset_ne st k k' (.list [v]) none hk
    | some e =>
      rcases e with ⟨val, t⟩
      cases val with
      | str s => rfl
      | msg m => rfl
      | list l => simpa using sfind_sset_ne st k k' (.list (v :: l)) t hk
  | ltrim k' a b =>
    have hk : k' ≠ k := by simpa [opTouches] using h
    simp only [execOp, rltrim]
    cases hf : sfind st k' with
    | none => rfl
    | some e =>
      rcases e with ⟨val, t⟩
      cases val with
      | str s => rfl
      | msg m => rfl
      | list l =>
        by_cases hs : listSlice l a b = []
        · simpa [hs] using sfind_sremove_ne st k k' hk
        · simpa [hs] using sfind_sset_ne st k k' (.list (listSlice l a b)) t hk
  | expire k' t =>
    have hk : k' ≠ k := by simpa [opTouches] using h
    simp only [execOp, rexpire]
    cases hf : sfind st k' with
    | none => rfl
    | some e => simpa using sfind_sset_ne st k k' e.1 (some t) hk
  | del k' =>
    have hk : k' ≠ k := by simpa [opTouches] using h
    simpa [execOp, rdel] using sfind_sremove_ne st k k' hk
  | mdel ks =>
    have hnotin : k ∉ ks := by simpa [opTouches] using h
    simpa [execOp] using sfind_foldl_rdel ks st k hnotin

theorem sfind_execOps_untouched (st : Store) (ops : List Op) (k : String)
    (h : ∀ op ∈ ops, opTouches op k = false) :
    sfind (execOps st ops) k = sfind st k := by
  induction ops generalizing st with
  | nil => rfl
  | cons op rest ih =>
    have h1 : opTouches op k = false := h op (by simp)
    have h2 : ∀ o ∈ rest, opTouches o k = false := fun o hm => h o (by simp [hm])
    simp only [execOps, List.foldl_cons] at ih ⊢
    rw [ih (execOp st op) h2]
    exact sfind_execOp_untouched st op k h1

/-! Disjointness of the key namespaces. -/

theorem messageKey_ne_inboxKey (a b : String) : messageKey a ≠ inboxKey b := by
  intro h
  have h2 := congrArg String.data h
  simp [messageKey, inboxKey, String.data_append] at h2

theorem messageKey_ne_p1mailboxKey (a b : String) : messageKey a ≠ p1mailboxKey b := by
  intro h
  have h2 := congrArg String.data h
  simp [messageKey, p1mailboxKey, String.data_append] at h2

theorem messageKey_ne_mailboxRaw (a b : String) : messageKey a ≠ "mailbox:" ++ b := by
  intro h
  have h2 := congrArg String.data h
  simp [messageKey, String.data_append] at h2

theorem p1messageKey_ne_p1mailboxKey (a b : String) : p1messageKey a ≠ p1mailboxKey b := by
  intro h
  have h2 := congrArg String.data h
  simp [p1messageKey, p1mailboxKey, String.data_append] at h2

theorem attachKey_ne_inboxKey (m : String) (i : Nat) (b : String) :
    attachKey m i ≠ inboxKey b := by
  intro h
  have h2 := congrArg String.data h
  simp [attachKey, inboxKey, String.data_append] at h2

theorem attachKey_ne_messageKey (m : String) (i : Nat) (b : String) :
    attachKey m i ≠ messageKey b := by
  intro h
  have h2 := congrArg String.data h
  simp [attachKey, messageKey, String.data_append] at h2

theorem v1attKey_ne_inboxKey (a b : String) : v1attKey a ≠ inboxKey b := by
  intro h
  have h2 := congrArg String.data h
  simp [v1attKey, inboxKey, String.data_append] at h2

/-! Slice lemmas. -/

theorem listSlice_0_199 (l : List String) : listSlice l 0 199 = l.take 200 := by
  simp only [listSlice, normIdx]
  norm_num
  by_cases h : l = []
  · simp [h]
  · have hpos : 0 < l.length := List.length_pos.mpr h
    rw [if_neg h]
    by_cases hle : l.length ≤ 200
    · have ht : ((199 : Int) ⊓ ((l.length : Int) - 1) + 1).toNat = l.length := by omega
      rw [ht, List.take_of_length_le (le_refl _), List.take_of_length_le hle]
    · have ht : ((199 : Int) ⊓ ((l.length : Int) - 1) + 1).toNat = 200 := by omega
      rw [ht]

theorem listSlice_0_neg1 (l : List String) : listSlice l 0 (-1) = l := by
  simp only [listSlice, normIdx]
  norm_num

/-! Effect of the directory write sequences on the directory key. -/

theorem dirlist_eq_of_sfind (st' st : Store) (K : String)
    (h : sfind st' K = sfind st K) : dirlist st' K = dirlist st K := by
  simp [dirlist, h]

theorem keyIsListish_eq_of_sfind (st' st : Store) (K : String)
    (h : sfind st' K = sfind st K) : keyIsListish st' K = keyIsListish st K := by
  simp [keyIsListish, h]

theorem keyTtl_eq_of_sfind (st' st : Store) (K : String)
    (h : sfind st' K = sfind st K) : keyTtl st' K = keyTtl st K := by
  simp [keyTtl, h]

theorem take200_cons_ne_nil (e : String) (l : List String) :
    (e :: l).take 200 ≠ [] := by
  simp

theorem sfind_rlpush_listish (st : Store) (K e : String)
    (h : keyIsListish st K = true) :
    sfind (rlpush st K e) K = some (.list (e :: dirlist st K), keyTtl st K) := by
  simp only [keyIsListish] at h
  cases hf : sfind st K with
  | none => simp [rlpush, hf, sfind_sset_self, dirlist, keyTtl]
  | some p =>
    rcases p with ⟨val, t⟩
    cases val with
    | str s => simp [hf] at h
    | msg m => simp [hf] at h
    | list l => simp [rlpush, hf, sfind_sset_self, dirlist, keyTtl]

theorem sfind_rltrim_0_199 (st : Store) (K : String) (l : List String)
    (t : Option Nat) (h : sfind st K = some (.list l, t)) (hl : l ≠ []) :
    sfind (rltrim st K 0 199) K = some (.list (l.take 200), t) := by
  have hne : l.take 200 ≠ [] := by
    cases l with
    | nil => exact absurd rfl hl
    | cons a r => simp
  simp [rltrim, h, listSlice_0_199, hne, sfind_sset_self]

theorem sfind_rexpire_of_sfind (st : Store) (K : String) (v : RVal)
    (t : Option Nat) (T : Nat) (h : sfind st K = some (v, t)) :
    sfind (rexpire st K T) K = some (v, some T) := by
  simp [rexpire, h, sfind_sset_self]

theorem dirSeq_trim_expire (st : Store) (K e : String) (T : Nat)
    (h : keyIsListish st K = true) :
    sfind (execOps st [.lpush K e, .ltrim K 0 199, .expire K T]) K =
      some (.list ((e :: dirlist st K).take 200), some T) := by
  have h1 := sfind_rlpush_listish st K e h
  have h2 := sfind_rltrim_0_199 (rlpush st K e) K (e :: dirlist st K) (keyTtl st K)
    h1 (by simp)
  have h3 := sfind_rexpire_of_sfind (rltrim (rlpush st K e) K 0 199) K
    (.list ((e :: dirlist st K).take 200)) (keyTtl st K) T h2
  simpa [execOps, execOp] using h3

theorem dirSeq_noTrim_expire (st : Store) (K e : String) (T : Nat)
    (h : keyIsListish st K = true) :
    sfind (execOps st [.lpush K e, .expire K T]) K =
      some (.list (e :: dirlist st K), some T) := by
  have h1 := sfind_rlpush_listish st K e h
  have h3 := sfind_rexpire_of_sfind (rlpush st K e) K
    (.list (e :: dirlist st K)) (keyTtl st K) T h1
  simpa [execOps, execOp] using h3

theorem dirSeq_trim_noExpire (st : Store) (K e : String)
    (h : keyIsListish st K = true) :
    sfind (execOps st [.lpush K e, .ltrim K 0 199]) K =
      some (.list ((e :: dirlist st K).take 200), keyTtl st K) := by
  have h1 := sfind_rlpush_listish st K e h
  have h2 := sfind_rltrim_0_199 (rlpush st K e) K (e :: dirlist st K) (keyTtl st K)
    h1 (by simp)
  simpa [execOps, execOp] using h2

theorem storeAttachmentsOpsFrom_untouched (mid : String) (atts : List AttachIn)
    (K : String) (hK : ∀ j, attachKey mid j ≠ K) :
    ∀ n, ∀ op ∈ storeAttachmentsOpsFrom mid n atts, opTouches op K = false := by
  induction atts with
  | nil => intro n op hop; simp [storeAttachmentsOpsFrom] at hop
  | cons a rest ih =>
    intro n op hop
    simp only [storeAttachmentsOpsFrom] at hop
    rcases List.mem_append.mp hop with h1 | h2
    · by_cases hs : attStores a = true
      · simp only [hs, if_true, List.mem_singleton] at h1
        subst h1
        simp [opTouches, hK n]
      · simp only [Bool.not_eq_true] at hs
        simp [hs] at h1
    · exact ih (n + 1) op h2

theorem v1attOps_untouched (i : In) (K : String) (hK : ∀ a, v1attKey a ≠ K) :
    ∀ op ∈ v1attOps i, opTouches op K = false := by
  intro op hop
  simp only [v1attOps, List.mem_map] at hop
  rcases hop with ⟨p, _, rfl⟩
  simp [opTouches, hK p.2]

theorem execOps_cons (st : Store) (a : Op) (l : List Op) :
    execOps st (a :: l) = execOps (execOp st a) l := by
  simp [execOps]

theorem execOps_four_split (st : Store) (a b c d : Op) :
    execOps st [a, b, c, d] = execOps (execOps st [a, b, c]) [d] := by
  simp [execOps]

theorem preSetexDirTrim (st : Store) (k1 : String) (v1 : RVal) (t1 : Nat)
    (K e : String) (T : Nat) (hne : k1 ≠ K) (h : keyIsListish st K = true) :
    sfind (execOps st [.setex k1 v1 t1, .lpush K e, .ltrim K 0 199, .expire K T]) K =
      some (.list ((e :: dirlist st K).take 200), some T) := by
  rw [execOps_cons]
  have hpre : sfind (execOp st (.setex k1 v1 t1)) K = sfind st K :=
    sfind_execOp_untouched st _ K (by simp [opTouches, hne])
  rw [dirSeq_trim_expire _ K e T
    (by rw [keyIsListish_eq_of_sfind _ _ _ hpre]; exact h)]
  rw [dirlist_eq_of_sfind _ _ _ hpre]

theorem preSetexDirNoTrim (st : Store) (k1 : String) (v1 : RVal) (t1 : Nat)
    (K e : String) (T : Nat) (hne : k1 ≠ K) (h : keyIsListish st K = true) :
    sfind (execOps st [.setex k1 v1 t1, .lpush K e, .expire K T]) K =
      some (.list (e :: dirlist st K), some T) := by
  rw [execOps_cons]
  have hpre : sfind (execOp st (.setex k1 v1 t1)) K = sfind st K :=
    sfind_execOp_untouched st _ K (by simp [opTouches, hne])
  rw [dirSeq_noTrim_expire _ K e T
    (by rw [keyIsListish_eq_of_sfind _ _ _ hpre]; exact h)]
  rw [dirlist_eq_of_sfind _ _ _ hpre]

theorem dirTrimThenSetex (st : Store) (k1 : String) (v1 : RVal) (t1 : Nat)
    (K e : String) (T : Nat) (hne : k1 ≠ K) (h : keyIsListish st K = true) :
    sfind (execOps st [.lpush K e, .ltrim K 0 199, .expire K T, .setex k1 v1 t1]) K =
      some (.list ((e :: dirlist st K).take 200), some T) := by
  rw [execOps_four_split]
  have hops : ∀ op ∈ [Op.setex k1 v1 t1], opTouches op K = false := by
    intro op hop
    simp only [List.mem_singleton] at hop
    subst hop
    simp [opTouches, hne]
  have hpre : sfind (execOps (execOps st [.lpush K e, .ltrim K 0 199, .expire K T])
      [.setex k1 v1 t1]) K =
      sfind (execOps st [.lpush K e, .ltrim K 0 199, .expire K T]) K :=
    sfind_execOps_untouched _ _ K hops
  rw [hpre, dirSeq_trim_expire st K e T h]

/-- Effect of one successful ingestion on its mailbox directory key:
the pushed element is prepended (and the list trimmed to 200 on the
trimming paths), and the TTL is reset to `INBOX_TTL` on the paths that
issue `EXPIRE` (all but the third part_005 SMTP variant, which leaves
the prior TTL untouched). -/
theorem ingest_dir_effect (p : IngestPath) (i : In) (st : Store)
    (h : keyIsListish st (dirKeyOf p i) = true) :
    sfind (execOps st (ingestOps p i)) (dirKeyOf p i) =
      some (.list (stepList (trimsDir p) (dirElemOf p i) (dirlist st (dirKeyOf p i))),
        if setsInboxTtl p then some INBOX_TTL else keyTtl st (dirKeyOf p i)) := by
  cases p with
  | v1Push =>
    simp only [ingestOps, v1PushOps, dirKeyOf, dirElemOf, trimsDir, setsInboxTtl] at h ⊢
    rw [execOps_append]
    have hpre : sfind (execOps st (v1attOps i)) (inboxKey (v1local i)) =
        sfind st (inboxKey (v1local i)) :=
      sfind_execOps_untouched _ _ _
        (v1attOps_untouched i _ (fun a => v1attKey_ne_inboxKey a _))
    rw [preSetexDirNoTrim _ _ _ _ _ _ _ (messageKey_ne_inboxKey _ _)
      (by rw [keyIsListish_eq_of_sfind _ _ _ hpre]; exact h)]
    rw [dirlist_eq_of_sfind _ _ _ hpre]
    simp [stepList]
  | v2Store =>
    simp only [ingestOps, storeMessageOps, dirKeyOf, dirElemOf, trimsDir,
      setsInboxTtl] at h ⊢
    rw [execOps_append]
    have hpre : sfind (execOps st (storeAttachmentsOps i.msgId i.atts))
        (inboxKey (v2local i)) = sfind st (inboxKey (v2local i)) :=
      sfind_execOps_untouched _ _ _
        (storeAttachmentsOpsFrom_untouched i.msgId i.atts _
          (fun j => attachKey_ne_inboxKey i.msgId j _) 0)
    rw [preSetexDirTrim _ _ _ _ _ _ _ (messageKey_ne_inboxKey _ _)
      (by rw [keyIsListish_eq_of_sfind _ _ _ hpre]; exact h)]
    rw [dirlist_eq_of_sfind _ _ _ hpre]
    simp [stepList]
  | v3Push =>
    simp only [ingestOps, v3PushOps, dirKeyOf, dirElemOf, trimsDir, setsInboxTtl] at h ⊢
    rw [preSetexDirTrim st _ _ _ _ _ _ (messageKey_ne_inboxKey _ _) h]
    simp [stepList]
  | v3TestPush =>
    simp only [ingestOps, v3TestPushOps, dirKeyOf, dirElemOf, trimsDir,
      setsInboxTtl] at h ⊢
    rw [preSetexDirTrim st _ _ _ _ _ _ (messageKey_ne_inboxKey _ _) h]
    simp [stepList]
  | p1Store =>
    simp only [ingestOps, p1StoreOps, dirKeyOf, dirElemOf, trimsDir, setsInboxTtl] at h ⊢
    rw [preSetexDirTrim st _ _ _ _ _ _ (p1messageKey_ne_p1mailboxKey _ _) h]
    simp [stepList]
  | p2Smtp =>
    simp only [ingestOps, p2SmtpOps, dirKeyOf, dirElemOf, trimsDir, setsInboxTtl] at h ⊢
    rw [preSetexDirTrim st _ _ _ _ _ _ (messageKey_ne_inboxKey _ _) h]
    simp [stepList]
  | p5aStore =>
    simp only [ingestOps, p5aStoreOps, dirKeyOf, dirElemOf, trimsDir,
      setsInboxTtl, p5mailboxKey] at h ⊢
    rw [dirTrimThenSetex st _ _ _ _ _ _ (messageKey_ne_mailboxRaw _ _) h]
    simp [stepList]
  | p5aTestGet =>
    simp only [ingestOps, p5aTestGetOps, dirKeyOf, dirElemOf, trimsDir,
      setsInboxTtl, p5mailboxKey] at h ⊢
    rw [dirTrimThenSetex st _ _ _ _ _ _ (messageKey_ne_mailboxRaw _ _) h]
    simp [stepList]
  | p5bPush =>
    simp only [ingestOps, p5bPushOps, dirKeyOf, dirElemOf, trimsDir, setsInboxTtl] at h ⊢
    rw [preSetexDirTrim st _ _ _ _ _ _ (messageKey_ne_inboxKey _ _) h]
    simp [stepList]
  | p5bSmtp =>
    simp only [ingestOps, p5bSmtpOps, p5bPushOps, dirKeyOf, dirElemOf, trimsDir,
      setsInboxTtl] at h ⊢
    rw [preSetexDirTrim st _ _ _ _ _ _ (messageKey_ne_inboxKey _ _) h]
    simp [stepList]
  | p5cSmtp =>
    simp only [ingestOps, p5cSmtpOps, dirKeyOf, dirElemOf, trimsDir, setsInboxTtl] at h ⊢
    rw [dirSeq_trim_noExpire st _ _ h]
    simp [stepList]

theorem take_append_take (n : Nat) (X l : List String) :
    (X ++ l.take n).take n = (X ++ l).take n := by
  rw [List.take_append_eq_append_take, List.take_append_eq_append_take, List.take_take,
    Nat.min_eq_left (Nat.sub_le n X.length)]

/-- Invariant of repeated ingestion into one mailbox: the first 200
directory entries are the first 200 of the reversed pushed elements
(followed by whatever the directory held before). -/
theorem foldIngest_dirlist (p : IngestPath) (K : String) (inputs : List In)
    (st : Store) (hkey : ∀ i ∈ inputs, dirKeyOf p i = K)
    (h : keyIsListish st K = true) :
    keyIsListish (foldIngest p st inputs) K = true ∧
      (dirlist (foldIngest p st inputs) K).take 200 =
        ((inputs.map (dirElemOf p)).reverse ++ dirlist st K).take 200 := by
  induction inputs generalizing st with
  | nil => exact ⟨h, by simp [foldIngest]⟩
  | cons i rest ih =>
    have hKi : dirKeyOf p i = K := hkey i (by simp)
    have hrest : ∀ j ∈ rest, dirKeyOf p j = K := fun j hj => hkey j (by simp [hj])
    have heff := ingest_dir_effect p i st (by rw [hKi]; exact h)
    rw [hKi] at heff
    have hfold : foldIngest p st (i :: rest) =
        foldIngest p (execOps st (ingestOps p i)) rest := by
      simp [foldIngest]
    rw [hfold]
    have hl1 : keyIsListish (execOps st (ingestOps p i)) K = true := by
      simp [keyIsListish, heff]
    have hd1 : dirlist (execOps st (ingestOps p i)) K =
        stepList (trimsDir p) (dirElemOf p i) (dirlist st K) := by
      simp [dirlist, heff]
    obtain ⟨hA, hB⟩ := ih (execOps st (ingestOps p i)) hrest hl1
    refine ⟨hA, ?_⟩
    rw [hB, hd1]
    cases htr : trimsDir p with
    | false => simp [stepList]
    | true =>
      simp only [stepList, if_true]
      rw [take_append_take]
      simp

/-- C1: for every mailbox and every ingestion path, after N ≥ 200
successful ingestions into it, `ListMessageIds` with limit 200 returns
exactly 200 entries, and they are the 200 most recently appended ones
in newest-first order. -/
theorem c1_bounded_retention (p : IngestPath) (K : String) (inputs : List In)
    (st : Store) (hkey : ∀ i ∈ inputs, dirKeyOf p i = K)
    (h : keyIsListish st K = true) (hn : 200 ≤ inputs.length) :
    ListMessageIds (foldIngest p st inputs) K 200 =
        ((inputs.map (dirElemOf p)).reverse).take 200 ∧
      (ListMessageIds (foldIngest p st inputs) K 200).length = 200 := by
  obtain ⟨hA, hB⟩ := foldIngest_dirlist p K inputs st hkey h
  have h199 : ((200 : Nat) : Int) - 1 = 199 := by norm_num
  have hrl : ListMessageIds (foldIngest p st inputs) K 200 =
      (dirlist (foldIngest p st inputs) K).take 200 := by
    simp only [ListMessageIds, h199]
    cases hf : sfind (foldIngest p st inputs) K with
    | none => simp [rlrange, hf, dirlist]
    | some e =>
      rcases e with ⟨val, t⟩
      cases val with
      | str s => simp [keyIsListish, hf] at hA
      | msg m => simp [keyIsListish, hf] at hA
      | list l => simp [rlrange, hf, dirlist, listSlice_0_199]
  have hlen : 200 ≤ ((inputs.map (dirElemOf p)).reverse).length := by
    simpa using hn
  constructor
  · rw [hrl, hB, List.take_append_of_le_length hlen]
  · rw [hrl, hB, List.take_append_of_le_length hlen, List.length_take]
    omega

/-- Witness for C1: 200 ingestions of a concrete input on the main
path fill the mailbox to exactly 200 ids. -/
theorem c1_bounded_retention_witness :
    (∀ i ∈ List.replicate 200 inA, dirKeyOf .v2Store i = inboxKey "abc") ∧
    keyIsListish ([] : Store) (inboxKey "abc") = true ∧
    200 ≤ (List.replicate 200 inA).length ∧
    (ListMessageIds (foldIngest .v2Store [] (List.replicate 200 inA)) (inboxKey "abc") 200 =
        (((List.replicate 200 inA).map (dirElemOf .v2Store)).reverse).take 200 ∧
      (ListMessageIds (foldIngest .v2Store []
        (List.replicate 200 inA)) (inboxKey "abc") 200).length = 200) := by
  have hkey : ∀ i ∈ List.replicate 200 inA, dirKeyOf .v2Store i = inboxKey "abc" := by
    intro i hi
    rw [List.eq_of_mem_replicate hi]
    decide
  exact ⟨hkey, rfl, by rw [List.length_replicate],
    c1_bounded_retention .v2Store (inboxKey "abc") (List.replicate 200 inA) []
      hkey rfl (by rw [List.length_replicate])⟩

/-- C6 (amended): every ingestion path that issues `EXPIRE` — all but
the plain ioredis SMTP variant — resets the directory TTL to the full
`INBOX_TTL` window, whatever TTL the key had before. -/
theorem c6_ttl_reset_on_append (p : IngestPath) (i : In) (st : Store)
    (hp : setsInboxTtl p = true) (h : keyIsListish st (dirKeyOf p i) = true) :
    keyTtl (execOps st (ingestOps p i)) (dirKeyOf p i) = some INBOX_TTL := by
  have heff := ingest_dir_effect p i st h
  simp [keyTtl, heff, hp]

/-- Witness for C6: appending on the main path to a mailbox with 7
seconds left resets its TTL to the full 600-second window. -/
theorem c6_ttl_reset_witness :
    keyTtl (execOps stStaleInbox (ingestOps .v2Store inA)) (dirKeyOf .v2Store inA) =
      some INBOX_TTL :=
  c6_ttl_reset_on_append .v2Store inA stStaleInbox rfl (by decide)

/-- C6 counterexample: the plain ioredis SMTP variant appends without
any `EXPIRE`, so a mailbox with 5 seconds left keeps its stale TTL
instead of being reset to the full window. -/
theorem c6_counterexample :
    keyTtl (execOps stStale (ingestOps .p5cSmtp inStale)) (dirKeyOf .p5cSmtp inStale) =
        some 5 ∧
      (some 5 : Option Nat) ≠ some INBOX_TTL := by
  exact ⟨by decide, by decide⟩

/-- C2 (amended): immediately after `handleCreate`, `ListMessageIds`
returns the empty sequence with no error — but the directory key does
not exist: the trim to the empty range removed it and the `EXPIRE` was
a no-op, so "exists, empty" is not distinguishable from "never
created". -/
theorem c2_create_then_empty (st : Store) (lcl : String) :
    ListMessageIds (handleCreate st lcl).2 (inboxKey lcl) 50 = [] ∧
      sfind (handleCreate st lcl).2 (inboxKey lcl) = none := by
  have h1 : sfind (execOps st (handleCreateOps lcl)) (inboxKey lcl) = none := by
    simp only [handleCreateOps, execOps, List.foldl_cons, List.foldl_nil, execOp]
    have hdel : sfind (rdel st (inboxKey lcl)) (inboxKey lcl) = none := by
      simpa [rdel] using sfind_sremove_self st (inboxKey lcl)
    have hpush : sfind (rlpush (rdel st (inboxKey lcl)) (inboxKey lcl) "__init__")
        (inboxKey lcl) = some (.list ["__init__"], none) := by
      simp [rlpush, hdel, sfind_sset_self]
    have hslice : listSlice ["__init__"] 1 (-1) = [] := by decide
    have htrim : sfind (rltrim (rlpush (rdel st (inboxKey lcl)) (inboxKey lcl)
        "__init__") (inboxKey lcl) 1 (-1)) (inboxKey lcl) = none := by
      simp [rltrim, hpush, hslice]
      exact sfind_sremove_self _ _
    simp [rexpire, htrim]
  refine ⟨?_, by simpa [handleCreate] using h1⟩
  simp [ListMessageIds, rlrange, handleCreate, h1]

/-- C2 counterexample: after `handleCreate` on an empty store the
directory key is absent — there is no zero-element entry carrying a
live TTL, contradicting the claimed materialization. -/
theorem c2_counterexample :
    sfind ((handleCreate [] "abc").2) (inboxKey "abc") = none ∧
      ListMessageIds ((handleCreate [] "abc").2) (inboxKey "abc") 50 = [] := by
  exact ⟨by decide, by decide⟩

/-! Inbox listing lemmas (C5, C9). -/

theorem inboxLoop_skip_absent (st : Store) (now d : String)
    (hd : rgetMsg st (messageKey d) = none) (ids : List String) :
    inboxLoop st now ids = inboxLoop st now (ids.filter (fun x => x != d)) := by
  induction ids with
  | nil => rfl
  | cons a rest ih =>
    rw [List.filter_cons]
    by_cases ha : a = d
    · subst ha
      simp only [bne_self_eq_false, Bool.false_eq_true, if_false]
      rw [← ih]
      by_cases hinit : a = "__init__"
      · simp [inboxLoop, hinit]
      · simp [inboxLoop, hinit, hd]
    · have hb : (a != d) = true := bne_iff_ne.mpr ha
      simp only [hb, if_true]
      by_cases hinit : a = "__init__"
      · simp [inboxLoop, hinit, ih]
      · cases hm : rgetMsg st (messageKey a) with
        | none => simp [inboxLoop, hinit, hm, ih]
        | some m => simp [inboxLoop, hinit, hm, ih]

theorem inboxLoop_skip_init (st : Store) (now : String) (ids : List String) :
    inboxLoop st now ids =
      inboxLoop st now (ids.filter (fun x => x != "__init__")) := by
  induction ids with
  | nil => rfl
  | cons a rest ih =>
    rw [List.filter_cons]
    by_cases ha : a = "__init__"
    · subst ha
      simp only [bne_self_eq_false, Bool.false_eq_true, if_false]
      rw [← ih]
      simp [inboxLoop]
    · have hb : (a != "__init__") = true := bne_iff_ne.mpr ha
      simp only [hb, if_true]
      cases hm : rgetMsg st (messageKey a) with
      | none => simp [inboxLoop, ha, hm, ih]
      | some m => simp [inboxLoop, ha, hm, ih]

theorem inboxLoop_provenance (st : Store) (now : String) (ids : List String) :
    ∀ s ∈ inboxLoop st now ids, ∃ id ∈ ids, id ≠ "__init__" ∧
      ∃ m, rgetMsg st (messageKey id) = some m ∧ s = summarize now m := by
  induction ids with
  | nil => intro s hs; simp [inboxLoop] at hs
  | cons a rest ih =>
    intro s hs
    by_cases hinit : a = "__init__"
    · rw [inboxLoop, if_pos hinit] at hs
      obtain ⟨id, hid, hni, m, hm, hsum⟩ := ih s hs
      exact ⟨id, by simp [hid], hni, m, hm, hsum⟩
    · rw [inboxLoop, if_neg hinit] at hs
      cases hm : rgetMsg st (messageKey a) with
      | none =>
        rw [hm] at hs
        obtain ⟨id, hid, hni, m, hmm, hsum⟩ := ih s hs
        exact ⟨id, by simp [hid], hni, m, hmm, hsum⟩
      | some m =>
        rw [hm] at hs
        rcases List.mem_cons.mp hs with h1 | h2
        · exact ⟨a, by simp, hinit, m, hm, h1⟩
        · obtain ⟨id, hid, hni, m', hmm, hsum⟩ := ih s h2
          exact ⟨id, by simp [hid], hni, m', hmm, hsum⟩

/-- C5: when a directory id has no record in the store (expired or
never written), `handleInbox` raises no error and returns exactly the
listing computed without that id — it is silently excluded and every
other resolvable message is still included. -/
theorem c5_dangling_tolerance (st : Store) (now lcl d : String)
    (hl : lcl ≠ "") (_hmem : d ∈ rlrange st (inboxKey lcl) 0 49)
    (hd : rgetMsg st (messageKey d) = none) :
    handleInbox st now lcl =
      .ok (inboxLoop st now
        ((rlrange st (inboxKey lcl) 0 49).filter (fun x => x != d))) := by
  rw [handleInbox, if_neg hl, inboxLoop_skip_absent st now d hd]

/-- Witness for C5: the store with a dangling id `gone` lists only the
resolvable `kept` message, with no error. -/
theorem c5_dangling_tolerance_witness :
    ("abc" : String) ≠ "" ∧
    "gone" ∈ rlrange stDangling (inboxKey "abc") 0 49 ∧
    rgetMsg stDangling (messageKey "gone") = none ∧
    handleInbox stDangling "now0" "abc" =
      .ok (inboxLoop stDangling "now0"
        ((rlrange stDangling (inboxKey "abc") 0 49).filter (fun x => x != "gone"))) := by
  refine ⟨by decide, by decide, by decide, ?_⟩
  exact c5_dangling_tolerance stDangling "now0" "abc" "gone" (by decide) (by decide)
    (by decide)

/-- C9: the `"__init__"` placeholder pushed by `handleCreate` never
surfaces from `handleInbox`: for every store, the listing equals the
listing of the directory with all `"__init__"` entries removed, and
every returned summary stems from a non-placeholder id whose record is
present. -/
theorem c9_init_never_listed (st : Store) (now lcl : String) (hl : lcl ≠ "") :
    handleInbox st now lcl =
      .ok (inboxLoop st now
        ((rlrange st (inboxKey lcl) 0 49).filter (fun x => x != "__init__"))) ∧
    ∀ s ∈ inboxLoop st now (rlrange st (inboxKey lcl) 0 49),
      ∃ id ∈ rlrange st (inboxKey lcl) 0 49, id ≠ "__init__" ∧
        ∃ m, rgetMsg st (messageKey id) = some m ∧ s = summarize now m := by
  constructor
  · rw [handleInbox, if_neg hl, inboxLoop_skip_init]
  · exact inboxLoop_provenance st now _

/-- Witness for C9: the store whose directory starts with `"__init__"`
lists only the real `kept` message. -/
theorem c9_init_never_listed_witness :
    ("abc" : String) ≠ "" ∧
    (handleInbox stInit "now0" "abc" =
      .ok (inboxLoop stInit "now0"
        ((rlrange stInit (inboxKey "abc") 0 49).filter (fun x => x != "__init__"))) ∧
    ∀ s ∈ inboxLoop stInit "now0" (rlrange stInit (inboxKey "abc") 0 49),
      ∃ id ∈ rlrange stInit (inboxKey "abc") 0 49, id ≠ "__init__" ∧
        ∃ m, rgetMsg stInit (messageKey id) = some m ∧ s = summarize "now0" m) := by
  exact ⟨by decide, c9_init_never_listed stInit "now0" "abc" (by decide)⟩

/-- C10 (amended): with a non-blank message id, a non-finite or
negative index yields the invalid-index client error with zero store
accesses; a blank id yields the missing-id error first, likewise with
zero accesses; a resolvable message without metadata at the requested
index yields NotFound; and the handler only ever reads the store. -/
theorem c10_attachment_index_guard (st : Store) (idParam : String) (idx : JsNum)
    (q : ℚ) (m : Msg) :
    (jsTrim idParam ≠ "" → JsNum.isFinite idx = false →
      handleAttachment st idParam idx = (.badRequest "invalid_idx", [])) ∧
    (jsTrim idParam ≠ "" → q < 0 →
      handleAttachment st idParam (.num q) = (.badRequest "invalid_idx", [])) ∧
    (jsTrim idParam ≠ "" → 0 ≤ q →
      rgetMsg st (messageKey (jsTrim idParam)) = some m →
      m.attachments.find? (fun x => decide ((x.idx : ℚ) = q)) = none →
      handleAttachment st idParam (.num q) =
        (.notFound "attachment_not_found", [.get (messageKey (jsTrim idParam))])) ∧
    (∀ op ∈ (handleAttachment st idParam idx).2, isWrite op = false) := by
  refine ⟨?_, ?_, ?_, ?_⟩
  · intro hid hfin
    cases idx with
    | num q => simp [JsNum.isFinite] at hfin
    | nan => simp [handleAttachment, hid]
    | inf => simp [handleAttachment, hid]
    | ninf => simp [handleAttachment, hid]
  · intro hid hneg
    simp [handleAttachment, hid, hneg]
  · intro hid hpos hmsg hfind
    have hq : ¬ (q < 0) := not_lt.mpr hpos
    simp [handleAttachment, hid, hq, handleAttachmentCore, hmsg, hfind]
  · intro op hop
    by_cases hid : jsTrim idParam = ""
    · simp [handleAttachment, hid] at hop
    · cases idx with
      | nan => simp [handleAttachment, hid] at hop
      | inf => simp [handleAttachment, hid] at hop
      | ninf => simp [handleAttachment, hid] at hop
      | num q =>
        by_cases hneg : q < 0
        · simp [handleAttachment, hid, hneg] at hop
        · simp only [handleAttachment, hid, hneg, if_false, if_neg hid] at hop
          rcases hmsg : rgetMsg st (messageKey (jsTrim idParam)) with _ | m'
          · simp [handleAttachmentCore, hmsg] at hop
            subst hop
            rfl
          · simp only [handleAttachmentCore, hmsg] at hop
            rcases hfind : m'.attachments.find? (fun x => decide ((x.idx : ℚ) = q)) with
              _ | meta
            · simp [hfind] at hop
              subst hop
              rfl
            · simp only [hfind] at hop
              by_cases hst : meta.stored ≠ "redis"
              · simp [hst] at hop
                subst hop
                rfl
              · simp only [hst, if_false, if_neg hst] at hop
                rcases hb : rgetStr st (attachKey (jsTrim idParam) meta.idx) with _ | b64
                · simp [hb] at hop
                  rcases hop with h1 | h1 <;> (subst h1; rfl)
                · simp only [hb] at hop
                  by_cases hbe : b64 = ""
                  · simp [hbe] at hop
                    rcases hop with h1 | h1 <;> (subst h1; rfl)
                  · simp [hbe] at hop
                    rcases hop with h1 | h1 <;> (subst h1; rfl)

/-- Witness for C10 at concrete requests against the dangling-store
fixture. -/
theorem c10_attachment_index_guard_witness :
    handleAttachment stDangling "kept" .nan = (.badRequest "invalid_idx", []) ∧
    handleAttachment stDangling "kept" (.num (-1)) = (.badRequest "invalid_idx", []) ∧
    handleAttachment stDangling "kept" (.num 3) =
      (.notFound "attachment_not_found", [.get (messageKey "kept")]) := by
  have hjs : jsTrim "kept" = "kept" := by decide
  refine ⟨(c10_attachment_index_guard stDangling "kept" .nan 0 mKept).1
      (by decide) rfl,
    (c10_attachment_index_guard stDangling "kept" .nan (-1) mKept).2.1
      (by decide) (by norm_num), ?_⟩
  have h3 := (c10_attachment_index_guard stDangling "kept" .nan 3 mKept).2.2.1
    (by decide) (by norm_num) (by rw [hjs]; decide) (by decide)
  rw [hjs] at h3
  exact h3

/-- C10 counterexample: a request whose id parameter is blank but whose
index is malformed returns the missing-id error, not the invalid-index
error the claim promises for every request with a malformed index. -/
theorem c10_counterexample :
    handleAttachment stDangling " " JsNum.nan = (.badRequest "missing_id", []) ∧
      ("missing_id" : String) ≠ "invalid_idx" := by
  exact ⟨by decide, by decide⟩

/-! Cascade delete (C8). -/

theorem sfind_foldl_rdel_mem (ks : List String) (st : Store) (k : String)
    (h : k ∈ ks) : sfind (ks.foldl rdel st) k = none := by
  induction ks generalizing st with
  | nil => cases h
  | cons a rest ih =>
    by_cases hk : k ∈ rest
    · simp only [List.foldl_cons]
      exact ih (rdel st a) hk
    · have ha : a = k := by
        rcases List.mem_cons.mp h with h1 | h2
        · exact h1.symm
        · exact absurd h2 hk
      subst ha
      simp only [List.foldl_cons]
      rw [sfind_foldl_rdel rest (rdel st a) a hk]
      simpa [rdel] using sfind_sremove_self st a

/-- C8: the part_001 administrative mailbox delete removes every record
referenced by the directory list and then the directory key itself;
afterwards no referenced record is fetchable and the directory is gone.
When the directory is non-empty the issued sequence is exactly read,
multi-delete of the record keys, then delete of the directory key. -/
theorem c8_delete_mailbox_cascade (st : Store) (mb : String) :
    sfind (p1Delete st mb) (p1mailboxKey mb) = none ∧
    (∀ id ∈ rlrange st (p1mailboxKey mb) 0 (-1),
      sfind (p1Delete st mb) (p1messageKey id) = none) ∧
    (rlrange st (p1mailboxKey mb) 0 (-1) ≠ [] →
      p1DeleteOps st mb =
        [Op.lrange (p1mailboxKey mb) 0 (-1),
         Op.mdel ((rlrange st (p1mailboxKey mb) 0 (-1)).map p1messageKey),
         Op.del (p1mailboxKey mb)]) := by
  refine ⟨?_, ?_, ?_⟩
  · by_cases hne : (rlrange st (p1mailboxKey mb) 0 (-1)).isEmpty
    · simp [p1Delete, p1DeleteOps, hne, execOps, execOp, rdel]
      exact sfind_sremove_self _ _
    · simp only [p1Delete, p1DeleteOps, hne, if_false, Bool.false_eq_true]
      simp only [execOps, List.cons_append, List.nil_append, List.foldl_cons,
        List.foldl_nil, execOp, rdel]
      exact sfind_sremove_self _ _
  · intro id hid
    have hne : (rlrange st (p1mailboxKey mb) 0 (-1)).isEmpty = false := by
      cases hl : rlrange st (p1mailboxKey mb) 0 (-1) with
      | nil => rw [hl] at hid; cases hid
      | cons a r => simp [hl]
    simp only [p1Delete, p1DeleteOps, hne, if_false, Bool.false_eq_true]
    simp only [execOps, List.cons_append, List.nil_append, List.foldl_cons,
      List.foldl_nil, execOp]
    have hmem : p1messageKey id ∈ (rlrange st (p1mailboxKey mb) 0 (-1)).map p1messageKey :=
      List.mem_map_of_mem p1messageKey hid
    have hdel : sfind (((rlrange st (p1mailboxKey mb) 0 (-1)).map p1messageKey).foldl
        rdel st) (p1messageKey id) = none := sfind_foldl_rdel_mem _ st _ hmem
    simp only [rdel]
    rw [sfind_sremove_ne _ _ _ (Ne.symm (p1messageKey_ne_p1mailboxKey id mb))]
    exact hdel
  · intro hne
    have h : (rlrange st (p1mailboxKey mb) 0 (-1)).isEmpty = false := by
      cases hl : rlrange st (p1mailboxKey mb) 0 (-1) with
      | nil => exact absurd hl hne
      | cons a r => simp [hl]
    simp [p1DeleteOps, h]

/-- Witness for C8 on the three-entry part_001 fixture. -/
theorem c8_delete_mailbox_cascade_witness :
    sfind (p1Delete stP1 "abc@temp-mail.gr") (p1mailboxKey "abc@temp-mail.gr") = none ∧
    (∀ id ∈ rlrange stP1 (p1mailboxKey "abc@temp-mail.gr") 0 (-1),
      sfind (p1Delete stP1 "abc@temp-mail.gr") (p1messageKey id) = none) ∧
    p1DeleteOps stP1 "abc@temp-mail.gr" =
      [Op.lrange (p1mailboxKey "abc@temp-mail.gr") 0 (-1),
       Op.mdel ((rlrange stP1 (p1mailboxKey "abc@temp-mail.gr") 0 (-1)).map p1messageKey),
       Op.del (p1mailboxKey "abc@temp-mail.gr")] := by
  obtain ⟨h1, h2, h3⟩ := c8_delete_mailbox_cascade stP1 "abc@temp-mail.gr"
  exact ⟨h1, h2, h3 (by decide)⟩

/-! Recipient validation (C3). -/

theorem splitOnChar_no_sep (sep : Char) (l : List Char) (h : sep ∉ l) :
    splitOnChar sep l = [l] := by
  induction l with
  | nil => rfl
  | cons c rest ih =>
    have hc : c ≠ sep := fun he => h (by simp [he])
    have hr : sep ∉ rest := fun hm => h (by simp [hm])
    simp [splitOnChar, hc, ih hr]

theorem jsEmailTest_false_of_no_at (s : String) (h : jsHasAt s = false) :
    jsEmailTest s = false := by
  have hnot : '@' ∉ s.toList := by simpa [jsHasAt] using h
  have hsplit := splitOnChar_no_sep '@' s.toList hnot
  unfold jsEmailTest
  rw [hsplit]

/-- C3 (amended): the entry points that validate the recipient — the
raw-MIME inbound, the Mailgun inbound, the multipart push, the dev test
push and the part_005 JSON push — reject a recipient without `@` with a
client error and perform zero store writes.  (The JSON
`/incoming-email` path and the first-variant `/push` do not validate
the address shape; see the counterexample.) -/
theorem c3_invalid_recipient_rejected (e : GuardedIngest) (i : In)
    (h : jsHasAt (guardedTo e i) = false) :
    (runGuarded e i).1.isOk = false ∧ (runGuarded e i).2 = [] := by
  cases e with
  | cloudflareE =>
    simp only [guardedTo] at h
    simp [runGuarded, cloudflareInbound, h, IngestResp.isOk]
  | mailgunE =>
    simp only [guardedTo] at h
    simp [runGuarded, mailgunInbound, h, IngestResp.isOk]
  | v2pushE =>
    simp only [guardedTo] at h
    by_cases hraw : i.raw = ""
    · simp [runGuarded, v2push, hraw, IngestResp.isOk]
    · simp [runGuarded, v2push, hraw, h, IngestResp.isOk]
  | v3TestPushE =>
    simp only [guardedTo] at h
    have ht := jsEmailTest_false_of_no_at _ h
    simp only [v3to] at ht
    simp [runGuarded, v3TestPush, v3to, ht, IngestResp.isOk]
  | p5bPushE =>
    simp only [guardedTo] at h
    have ht := jsEmailTest_false_of_no_at _ h
    simp only [p5bto] at ht
    simp [runGuarded, p5bPushEntry, p5bto, ht, IngestResp.isOk]

/-- Witness for C3 on the raw-MIME inbound with `not-an-email`. -/
theorem c3_invalid_recipient_rejected_witness :
    jsHasAt (guardedTo .cloudflareE inBad) = false ∧
    ((runGuarded .cloudflareE inBad).1.isOk = false ∧
      (runGuarded .cloudflareE inBad).2 = []) := by
  exact ⟨by decide, c3_invalid_recipient_rejected .cloudflareE inBad (by decide)⟩

/-- C3 counterexample: the JSON `/incoming-email` entry point accepts
the recipient `not-an-email` (it only requires `to` and `from` to be
nonempty) and performs four store writes, so ingestion of an
`@`-less address does not fail with zero writes on every path. -/
theorem c3_counterexample :
    jsHasAt "not-an-email" = false ∧
    (incomingEmail inBad).1 = .ok "m1" ∧
    (incomingEmail inBad).2 ≠ [] := by
  refine ⟨by decide, by decide, by decide⟩

/-! Record-before-append order (C4). -/

theorem isPrefixOf_self_append (l r : List Char) :
    List.isPrefixOf l (l ++ r) = true := by
  induction l with
  | nil => simp [List.isPrefixOf]
  | cons a t ih => simp [List.isPrefixOf, ih]

theorem strPfx_append (p s : String) :
    List.isPrefixOf p.toList ((p ++ s).toList) = true := by
  have h : (p ++ s).toList = p.toList ++ s.toList := by
    simp [String.toList, String.data_append]
  rw [h]
  exact isPrefixOf_self_append _ _

theorem isMsgSet_messageKey (id : String) (v : RVal) (t : Nat) :
    isMsgSet (.setex (messageKey id) v t) = true := by
  simp [isMsgSet, messageKey, strPfx_append "msg:" id]

theorem isMsgSet_p1messageKey (id : String) (v : RVal) (t : Nat) :
    isMsgSet (.setex (p1messageKey id) v t) = true := by
  simp [isMsgSet, p1messageKey, strPfx_append "message:" id]

theorem isDirPush_inboxKey (lcl v : String) :
    isDirPush (.lpush (inboxKey lcl) v) = true := by
  simp [isDirPush, inboxKey, strPfx_append "inbox:" lcl]

theorem isDirPush_mailboxRaw (a v : String) :
    isDirPush (.lpush ("mailbox:" ++ a) v) = true := by
  simp [isDirPush, strPfx_append "mailbox:" a]

theorem isPrefixOf_ne_head (c d : Char) (l r : List Char) (h : ¬ (c = d)) :
    List.isPrefixOf (c :: l) (d :: r) = false := by
  simp [List.isPrefixOf, h]

theorem isMsgSet_attachKey (mid : String) (j : Nat) (v : RVal) (t : Nat) :
    isMsgSet (.setex (attachKey mid j) v t) = false := by
  have hdata : (attachKey mid j).toList =
      'a' :: 't' :: 't' :: ':' :: (mid ++ ":" ++ decStr j).toList := by
    simp [attachKey, String.toList, String.data_append]
  simp only [isMsgSet, hdata,
    show "msg:".toList = ['m', 's', 'g', ':'] from rfl,
    show "message:".toList = ['m', 'e', 's', 's', 'a', 'g', 'e', ':'] from rfl]
  rw [isPrefixOf_ne_head 'm' 'a' _ _ (by decide),
    isPrefixOf_ne_head 'm' 'a' _ _ (by decide)]
  rfl

theorem isMsgSet_v1attKey (a : String) (v : RVal) (t : Nat) :
    isMsgSet (.setex (v1attKey a) v t) = false := by
  have hdata : (v1attKey a).toList = 'a' :: 't' :: 't' :: ':' :: a.toList := by
    simp [v1attKey, String.toList, String.data_append]
  simp only [isMsgSet, hdata,
    show "msg:".toList = ['m', 's', 'g', ':'] from rfl,
    show "message:".toList = ['m', 'e', 's', 's', 'a', 'g', 'e', ':'] from rfl]
  rw [isPrefixOf_ne_head 'm' 'a' _ _ (by decide),
    isPrefixOf_ne_head 'm' 'a' _ _ (by decide)]
  rfl

theorem isDirPush_setex (k : String) (v : RVal) (t : Nat) :
    isDirPush (.setex k v t) = false := rfl

theorem isDirPush_ltrim (k : String) (a b : Int) :
    isDirPush (.ltrim k a b) = false := rfl

theorem isDirPush_expire (k : String) (t : Nat) :
    isDirPush (.expire k t) = false := rfl

theorem isMsgSet_lpush (k v : String) : isMsgSet (.lpush k v) = false := rfl

theorem isMsgSet_ltrim (k : String) (a b : Int) :
    isMsgSet (.ltrim k a b) = false := rfl

theorem isMsgSet_expire (k : String) (t : Nat) :
    isMsgSet (.expire k t) = false := rfl

theorem goPTA_skip (ops rest : List Op) (seen : Bool)
    (h : ∀ op ∈ ops, isDirPush op = false ∧ isMsgSet op = false) :
    goPTA (ops ++ rest) seen = goPTA rest seen := by
  induction ops with
  | nil => rfl
  | cons a t ih =>
    have ha := h a (by simp)
    have ht : ∀ op ∈ t, isDirPush op = false ∧ isMsgSet op = false :=
      fun op hm => h op (by simp [hm])
    simp [goPTA, ha.1, ha.2, ih ht]

theorem storeAttachmentsOpsFrom_neutral (mid : String) (atts : List AttachIn) :
    ∀ n, ∀ op ∈ storeAttachmentsOpsFrom mid n atts,
      isDirPush op = false ∧ isMsgSet op = false := by
  induction atts with
  | nil => intro n op hop; simp [storeAttachmentsOpsFrom] at hop
  | cons a rest ih =>
    intro n op hop
    simp only [storeAttachmentsOpsFrom] at hop
    rcases List.mem_append.mp hop with h1 | h2
    · by_cases hs : attStores a = true
      · simp only [hs, if_true, List.mem_singleton] at h1
        subst h1
        exact ⟨rfl, isMsgSet_attachKey mid n _ _⟩
      · simp only [Bool.not_eq_true] at hs
        simp [hs] at h1
    · exact ih (n + 1) op h2

theorem v1attOps_neutral (i : In) :
    ∀ op ∈ v1attOps i, isDirPush op = false ∧ isMsgSet op = false := by
  intro op hop
  simp only [v1attOps, List.mem_map] at hop
  rcases hop with ⟨p, _, rfl⟩
  exact ⟨rfl, isMsgSet_v1attKey p.2 _ _⟩

/-- C4 (amended): on every ingestion path that writes a per-id record
with the record-first convention — all paths except the pipelined
part_005 `storeMessage`/test push, which issue the directory push
first, and the plain ioredis SMTP variant, which writes no record key —
the message-record `SET` is issued before every directory `LPUSH`. -/
theorem c4_record_before_append (p : IngestPath) (i : In)
    (hp : recordFirst p = true) :
    putThenAppend (ingestOps p i) = true := by
  cases p with
  | p5aStore => simp [recordFirst] at hp
  | p5aTestGet => simp [recordFirst] at hp
  | p5cSmtp => simp [recordFirst] at hp
  | v1Push =>
    simp only [ingestOps, v1PushOps, putThenAppend]
    rw [goPTA_skip _ _ _ (v1attOps_neutral i)]
    simp [goPTA, isMsgSet_messageKey, isDirPush_inboxKey, isDirPush_setex,
      isDirPush_expire, isMsgSet_lpush, isMsgSet_expire]
  | v2Store =>
    simp only [ingestOps, storeMessageOps, putThenAppend, storeAttachmentsOps]
    rw [goPTA_skip _ _ _ (storeAttachmentsOpsFrom_neutral i.msgId i.atts 0)]
    simp [goPTA, isMsgSet_messageKey, isDirPush_inboxKey, isDirPush_setex,
      isDirPush_ltrim, isDirPush_expire, isMsgSet_lpush, isMsgSet_ltrim,
      isMsgSet_expire]
  | v3Push =>
    simp [ingestOps, v3PushOps, putThenAppend, goPTA, isMsgSet_messageKey,
      isDirPush_inboxKey, isDirPush_setex, isDirPush_ltrim, isDirPush_expire,
      isMsgSet_lpush, isMsgSet_ltrim, isMsgSet_expire]
  | v3TestPush =>
    simp [ingestOps, v3TestPushOps, putThenAppend, goPTA, isMsgSet_messageKey,
      isDirPush_inboxKey, isDirPush_setex, isDirPush_ltrim, isDirPush_expire,
      isMsgSet_lpush, isMsgSet_ltrim, isMsgSet_expire]
  | p1Store =>
    simp [ingestOps, p1StoreOps, putThenAppend, goPTA, isMsgSet_p1messageKey,
      p1mailboxKey, isDirPush_mailboxRaw, isDirPush_setex, isDirPush_ltrim,
      isDirPush_expire, isMsgSet_lpush, isMsgSet_ltrim, isMsgSet_expire]
  | p2Smtp =>
    simp [ingestOps, p2SmtpOps, putThenAppend, goPTA, isMsgSet_messageKey,
      isDirPush_inboxKey, isDirPush_setex, isDirPush_ltrim, isDirPush_expire,
      isMsgSet_lpush, isMsgSet_ltrim, isMsgSet_expire]
  | p5bPush =>
    simp [ingestOps, p5bPushOps, putThenAppend, goPTA, isMsgSet_messageKey,
      isDirPush_inboxKey, isDirPush_setex, isDirPush_ltrim, isDirPush_expire,
      isMsgSet_lpush, isMsgSet_ltrim, isMsgSet_expire]
  | p5bSmtp =>
    simp [ingestOps, p5bSmtpOps, p5bPushOps, putThenAppend, goPTA,
      isMsgSet_messageKey, isDirPush_inboxKey, isDirPush_setex, isDirPush_ltrim,
      isDirPush_expire, isMsgSet_lpush, isMsgSet_ltrim, isMsgSet_expire]

/-- Witness for C4 on the main `storeMessage` path. -/
theorem c4_record_before_append_witness :
    putThenAppend (ingestOps .v2Store inA) = true :=
  c4_record_before_append .v2Store inA rfl

/-- C4 counterexample: the part_005 pipelined `storeMessage` issues the
directory `LPUSH` as its first operation, before the record `SET`, so
the record-before-directory ordering fails on that ingestion path. -/
theorem c4_counterexample :
    putThenAppend (ingestOps .p5aStore inA) = false ∧
    isDirPush ((ingestOps .p5aStore inA).headD (.get "")) = true := by
  exact ⟨by decide, by decide⟩

/-! Base64 round-trip (C7). -/

theorem b64val_b64chr (v : Nat) (h : v < 64) : b64val (b64chr v) = v := by
  have hall : ∀ w : Fin 64, b64val (b64chr w.val) = w.val := by decide
  exact hall ⟨v, h⟩

theorem b64chr_ne_eq (v : Nat) (h : v < 64) : b64chr v ≠ '=' := by
  have hall : ∀ w : Fin 64, b64chr w.val ≠ '=' := by decide
  exact hall ⟨v, h⟩

theorem b64val_eq_sym : b64val '=' = 0 := by decide

theorem b64_core_count (l : List Nat) (h : ∀ x ∈ l, x < 256) :
    b64decodeCore (b64encode l) = l ++ List.replicate ((3 - l.length % 3) % 3) 0 ∧
      (b64encode l).count '=' = (3 - l.length % 3) % 3 := by
  induction l using b64encode.induct with
  | case1 => simp [b64encode, b64decodeCore]
  | case2 a =>
    have ha : a < 256 := h a (by simp)
    have h1 : a / 4 < 64 := by omega
    have h2 : a % 4 * 16 < 64 := by omega
    constructor
    · simp only [b64encode, b64decodeCore, b64val_eq_sym,
        b64val_b64chr _ h1, b64val_b64chr _ h2]
      have e1 : a / 4 * 4 + a % 4 * 16 / 16 = a := by omega
      have e2 : a % 4 * 16 % 16 * 16 + 0 / 4 = 0 := by omega
      simp [e1, e2, List.replicate]
      omega
    · simp [b64encode, List.count_cons, b64chr_ne_eq _ h1, b64chr_ne_eq _ h2]
  | case3 a b =>
    have ha : a < 256 := h a (by simp)
    have hb : b < 256 := h b (by simp)
    have h1 : a / 4 < 64 := by omega
    have h2 : a % 4 * 16 + b / 16 < 64 := by omega
    have h3 : b % 16 * 4 < 64 := by omega
    constructor
    · simp only [b64encode, b64decodeCore, b64val_eq_sym,
        b64val_b64chr _ h1, b64val_b64chr _ h2, b64val_b64chr _ h3]
      have e1 : a / 4 * 4 + (a % 4 * 16 + b / 16) / 16 = a := by omega
      have e2 : (a % 4 * 16 + b / 16) % 16 * 16 + b % 16 * 4 / 4 = b := by omega
      have e3 : b % 16 * 4 % 4 * 64 + 0 = 0 := by omega
      simp [e1, e2, e3, List.replicate]
      omega
    · simp [b64encode, List.count_cons, b64chr_ne_eq _ h1, b64chr_ne_eq _ h2,
        b64chr_ne_eq _ h3]
  | case4 a b c rest ih =>
    have ha : a < 256 := h a (by simp)
    have hb : b < 256 := h b (by simp)
    have hc : c < 256 := h c (by simp)
    have hrest : ∀ x ∈ rest, x < 256 := fun x hx => h x (by simp [hx])
    obtain ⟨ihc, ihn⟩ := ih hrest
    have h1 : a / 4 < 64 := by omega
    have h2 : a % 4 * 16 + b / 16 < 64 := by omega
    have h3 : b % 16 * 4 + c / 64 < 64 := by omega
    have h4 : c % 64 < 64 := by omega
    constructor
    · simp only [b64encode, b64decodeCore, b64val_b64chr _ h1, b64val_b64chr _ h2,
        b64val_b64chr _ h3, b64val_b64chr _ h4]
      have e1 : a / 4 * 4 + (a % 4 * 16 + b / 16) / 16 = a := by omega
      have e2 : (a % 4 * 16 + b / 16) % 16 * 16 + (b % 16 * 4 + c / 64) / 4 = b := by
        omega
      have e3 : (b % 16 * 4 + c / 64) % 4 * 64 + c % 64 = c := by omega
      have e4 : ((rest.length + 3) % 3) = rest.length % 3 := by omega
      simp [e1, e2, e3, e4, ihc]
    · have e4 : ((a :: b :: c :: rest).length % 3) = rest.length % 3 := by
        simp
        omega
      simp [b64encode, List.count_cons, b64chr_ne_eq _ h1, b64chr_ne_eq _ h2,
        b64chr_ne_eq _ h3, b64chr_ne_eq _ h4, ihn, e4]
      omega

theorem b64_roundtrip (l : List Nat) (h : ∀ x ∈ l, x < 256) :
    b64decode (b64encode l) = l := by
  obtain ⟨hcore, hcount⟩ := b64_core_count l h
  simp only [b64decode, hcore, hcount]
  have hlen : (l ++ List.replicate ((3 - l.length % 3) % 3) 0).length =
      l.length + (3 - l.length % 3) % 3 := by simp
  rw [hlen]
  have he : l.length + (3 - l.length % 3) % 3 - (3 - l.length % 3) % 3 = l.length := by
    omega
  rw [he]
  exact List.take_left l (List.replicate ((3 - l.length % 3) % 3) 0)

theorem b64encode_ne_nil (l : List Nat) (h : l ≠ []) : b64encode l ≠ [] := by
  cases l with
  | nil => exact absurd rfl h
  | cons a t =>
    cases t with
    | nil => simp [b64encode]
    | cons b t2 =>
      cases t2 with
      | nil => simp [b64encode]
      | cons c t3 => simp [b64encode]

/-! Injectivity of the decimal index rendering (C7). -/

theorem digitChar_inj_lt (a b : Nat) (ha : a < 10) (hb : b < 10)
    (h : Nat.digitChar a = Nat.digitChar b) : a = b := by
  have hall : ∀ x y : Fin 10,
      Nat.digitChar x.val = Nat.digitChar y.val → x.val = y.val := by decide
  exact hall ⟨a, ha⟩ ⟨b, hb⟩ h

theorem map_digitChar_inj (l1 : List Nat) :
    ∀ l2 : List Nat, (∀ x ∈ l1, x < 10) → (∀ x ∈ l2, x < 10) →
      l1.map Nat.digitChar = l2.map Nat.digitChar → l1 = l2 := by
  induction l1 with
  | nil =>
    intro l2 _ _ h
    cases l2 with
    | nil => rfl
    | cons b t => simp at h
  | cons a t ih =>
    intro l2 h1 h2 h
    cases l2 with
    | nil => simp at h
    | cons b t2 =>
      simp only [List.map_cons, List.cons.injEq] at h
      have hab := digitChar_inj_lt a b (h1 a (by simp)) (h2 b (by simp)) h.1
      have ht := ih t2 (fun x hx => h1 x (by simp [hx]))
        (fun x hx => h2 x (by simp [hx])) h.2
      rw [hab, ht]

theorem digits_all_lt_10 (n : Nat) : ∀ d ∈ Nat.digits 10 n, d < 10 :=
  fun d hd => Nat.digits_lt_base (by norm_num) hd

theorem decStr_of_ne_zero_ne_zero_str (n : Nat) (hn : n ≠ 0) : decStr n ≠ "0" := by
  intro h
  simp only [decStr, hn, if_false] at h
  have hd := congrArg String.data h
  have hd2 : ((Nat.digits 10 n).reverse.map Nat.digitChar) = ['0'] := hd
  cases hl : (Nat.digits 10 n).reverse with
  | nil => rw [hl] at hd2; simp at hd2
  | cons d t =>
    rw [hl] at hd2
    simp only [List.map_cons, List.cons.injEq] at hd2
    have ht : t = [] := by
      have := congrArg List.length hd2.2
      simpa using List.map_eq_nil_iff.mp hd2.2
    have hdg : d ∈ Nat.digits 10 n := by
      have : d ∈ (Nat.digits 10 n).reverse := by rw [hl]; simp
      simpa using this
    have hd0 : d = 0 := by
      have h10 := digits_all_lt_10 n d hdg
      have : Nat.digitChar d = Nat.digitChar 0 := by
        rw [hd2.1]
        rfl
      exact digitChar_inj_lt d 0 h10 (by norm_num) this
    have hdig : Nat.digits 10 n = [0] := by
      have : (Nat.digits 10 n).reverse = [0] := by rw [hl, ht, hd0]
      have h2 := congrArg List.reverse this
      simpa using h2
    have := Nat.getLast_digit_ne_zero 10 hn
    rw [List.getLast_congr _ _ hdig] at this
    · simp at this
    · simp [hdig]

theorem decStr_inj (m n : Nat) (h : decStr m = decStr n) : m = n := by
  by_cases hm : m = 0
  · by_cases hn : n = 0
    · rw [hm, hn]
    · subst hm
      exact absurd h.symm (decStr_of_ne_zero_ne_zero_str n hn)
  · by_cases hn : n = 0
    · subst hn
      exact absurd h (decStr_of_ne_zero_ne_zero_str m hm)
    · simp only [decStr, hm, hn, if_false] at h
      have hd := congrArg String.data h
      have hmap : ((Nat.digits 10 m).reverse.map Nat.digitChar) =
          ((Nat.digits 10 n).reverse.map Nat.digitChar) := hd
      have hrev := map_digitChar_inj _ _
        (fun x hx => digits_all_lt_10 m x (by simpa using hx))
        (fun x hx => digits_all_lt_10 n x (by simpa using hx)) hmap
      have hdig : Nat.digits 10 m = Nat.digits 10 n := by
        have h2 := congrArg List.reverse hrev
        simpa using h2
      have := congrArg (Nat.ofDigits 10) hdig
      rwa [Nat.ofDigits_digits, Nat.ofDigits_digits] at this

theorem attachKey_inj_idx (mid : String) (i j : Nat)
    (h : attachKey mid i = attachKey mid j) : i = j := by
  have hd := congrArg String.data h
  simp only [attachKey, String.data_append] at hd
  have hdd := List.append_cancel_left hd
  exact decStr_inj i j (String.ext hdd)

theorem asString_ne_empty (l : List Char) (h : l ≠ []) : l.asString ≠ "" := by
  intro he
  have hd := congrArg String.data he
  exact h hd

/-! Attachment writes and lookups (C7). -/

theorem storeAttachmentsOpsFrom_shape (mid : String) (atts : List AttachIn) :
    ∀ n, ∀ op ∈ storeAttachmentsOpsFrom mid n atts,
      ∃ k, n ≤ k ∧ ∃ v t, op = Op.setex (attachKey mid k) v t := by
  induction atts with
  | nil => intro n op hop; simp [storeAttachmentsOpsFrom] at hop
  | cons a rest ih =>
    intro n op hop
    simp only [storeAttachmentsOpsFrom] at hop
    rcases List.mem_append.mp hop with h1 | h2
    · by_cases hs : attStores a = true
      · simp only [hs, if_true, List.mem_singleton] at h1
        exact ⟨n, le_refl n, _, _, h1⟩
      · simp only [Bool.not_eq_true] at hs
        simp [hs] at h1
    · obtain ⟨k, hk, v, t, hop'⟩ := ih (n + 1) op h2
      exact ⟨k, by omega, v, t, hop'⟩

theorem attachOps_lookup (mid : String) (atts : List AttachIn) :
    ∀ n (st : Store) (idx : Nat) (a : AttachIn), atts.get? idx = some a →
      attStores a = true →
      sfind (execOps st (storeAttachmentsOpsFrom mid n atts))
          (attachKey mid (n + idx)) =
        some (.str ((b64encode (a.content.getD [])).asString), some MSG_TTL) := by
  induction atts with
  | nil => intro n st idx a h; simp at h
  | cons b rest ih =>
    intro n st idx a hget hstore
    cases idx with
    | zero =>
      simp only [List.get?_cons_zero, Option.some.injEq] at hget
      subst hget
      simp only [storeAttachmentsOpsFrom, hstore, if_true, Nat.add_zero,
        List.singleton_append]
      rw [execOps_cons]
      have huntouched : ∀ op ∈ storeAttachmentsOpsFrom mid (n + 1) rest,
          opTouches op (attachKey mid n) = false := by
        intro op hop
        obtain ⟨k, hk, v, t, rfl⟩ := storeAttachmentsOpsFrom_shape mid rest (n + 1) op hop
        have hne : attachKey mid k ≠ attachKey mid n := by
          intro he
          have := attachKey_inj_idx mid k n he
          omega
        simp [opTouches, hne]
      rw [sfind_execOps_untouched _ _ _ huntouched]
      simp only [execOp, rsetex]
      exact sfind_sset_self _ _ _ _
    | succ k =>
      simp only [List.get?_cons_succ] at hget
      have harith : n + (k + 1) = (n + 1) + k := by omega
      rw [harith]
      simp only [storeAttachmentsOpsFrom]
      by_cases hs : attStores b = true
      · simp only [hs, if_true, List.singleton_append]
        rw [execOps_cons]
        exact ih (n + 1) _ k a hget hstore
      · simp only [Bool.not_eq_true] at hs
        simp only [hs, Bool.false_eq_true, if_false, List.nil_append]
        exact ih (n + 1) st k a hget hstore

theorem v2suffix_untouched_att (i : In) (idx : Nat) :
    ∀ op ∈ [Op.setex (messageKey i.msgId) (.msg (v2record i)) MSG_TTL,
        Op.lpush (inboxKey (v2local i)) i.msgId,
        Op.ltrim (inboxKey (v2local i)) 0 199,
        Op.expire (inboxKey (v2local i)) INBOX_TTL],
      opTouches op (attachKey i.msgId idx) = false := by
  intro op hop
  simp only [List.mem_cons, List.mem_singleton] at hop
  rcases hop with rfl | rfl | rfl | rfl | h
  · simp [opTouches, Ne.symm (attachKey_ne_messageKey i.msgId idx i.msgId)]
  · simp [opTouches, Ne.symm (attachKey_ne_inboxKey i.msgId idx (v2local i))]
  · simp [opTouches, Ne.symm (attachKey_ne_inboxKey i.msgId idx (v2local i))]
  · simp [opTouches, Ne.symm (attachKey_ne_inboxKey i.msgId idx (v2local i))]
  · cases h

theorem v2_att_lookup (i : In) (st : Store) (idx : Nat) (a : AttachIn)
    (hget : i.atts.get? idx = some a) (hstore : attStores a = true) :
    rgetStr (execOps st (storeMessageOps i)) (attachKey i.msgId idx) =
      some ((b64encode (a.content.getD [])).asString) := by
  simp only [storeMessageOps, rgetStr]
  rw [execOps_append, sfind_execOps_untouched _ _ _ (v2suffix_untouched_att i idx)]
  have h0 := attachOps_lookup i.msgId i.atts 0 st idx a hget hstore
  rw [Nat.zero_add] at h0
  simp only [storeAttachmentsOps]
  rw [h0]

theorem v2_msg_lookup (i : In) (st : Store) :
    rgetMsg (execOps st (storeMessageOps i)) (messageKey i.msgId) =
      some (v2record i) := by
  simp only [storeMessageOps, rgetMsg]
  rw [execOps_append, execOps_cons]
  have huntouched : ∀ op ∈ [Op.lpush (inboxKey (v2local i)) i.msgId,
      Op.ltrim (inboxKey (v2local i)) 0 199,
      Op.expire (inboxKey (v2local i)) INBOX_TTL],
      opTouches op (messageKey i.msgId) = false := by
    intro op hop
    simp only [List.mem_cons, List.mem_singleton] at hop
    rcases hop with rfl | rfl | rfl | h
    · simp [opTouches, Ne.symm (messageKey_ne_inboxKey i.msgId (v2local i))]
    · simp [opTouches, Ne.symm (messageKey_ne_inboxKey i.msgId (v2local i))]
    · simp [opTouches, Ne.symm (messageKey_ne_inboxKey i.msgId (v2local i))]
    · cases h
  rw [sfind_execOps_untouched _ _ _ huntouched]
  simp only [execOp, rsetex]
  rw [sfind_sset_self]

theorem find_meta_enumFrom (atts : List AttachIn) :
    ∀ n idx (a : AttachIn), atts.get? idx = some a →
      (((List.enumFrom n atts).map (fun p => mkAttachMeta p.1 p.2)).find?
          (fun x => decide ((x.idx : ℚ) = ((n + idx : Nat) : ℚ)))) =
        some (mkAttachMeta (n + idx) a) := by
  induction atts with
  | nil => intro n idx a h; simp at h
  | cons b rest ih =>
    intro n idx a hget
    cases idx with
    | zero =>
      simp only [List.get?_cons_zero, Option.some.injEq] at hget
      subst hget
      have hpred : decide (((mkAttachMeta n b).idx : ℚ) = ((n : Nat) : ℚ)) =
          true := by
        simp [mkAttachMeta]
      simp only [List.enumFrom, List.map_cons, List.find?, Nat.add_zero, hpred]
    | succ k =>
      simp only [List.get?_cons_succ] at hget
      have hpred : decide (((mkAttachMeta n b).idx : ℚ) =
          ((n + (k + 1) : Nat) : ℚ)) = false := by
        simp only [mkAttachMeta, decide_eq_false_iff_not]
        intro hq
        have : n = n + (k + 1) := by exact_mod_cast hq
        omega
      simp only [List.enumFrom, List.map_cons, List.find?, hpred]
      have harith : n + (k + 1) = (n + 1) + k := by omega
      rw [harith]
      exact ih (n + 1) k a hget

theorem attSize_pos_of_content (a : AttachIn) (c : List Nat)
    (hc : a.content = some c) (hne : c ≠ []) : 0 < attSize a := by
  have hlen : 0 < c.length := List.length_pos.mpr hne
  simp only [attSize, hc, Option.map_some', jsOrNat]
  cases hd : a.declaredSize with
  | none =>
    simp only []
    split
    · omega
    · omega
  | some k =>
    by_cases hk : k = 0
    · subst hk
      simp only [if_true]
      split
      · omega
      · omega
    · simp only [hk, if_false]
      omega

theorem attStores_true_of (a : AttachIn) (c : List Nat) (hc : a.content = some c)
    (hne : c ≠ []) (hsize : attSize a ≤ MAX_ATTACH_BYTES) : attStores a = true := by
  simp [attStores, hc, attSize_pos_of_content a c hc hne, hsize]

theorem attStores_false_of_big (a : AttachIn) (hover : MAX_ATTACH_BYTES < attSize a) :
    attStores a = false := by
  have h : ¬ (attSize a ≤ MAX_ATTACH_BYTES) := not_le.mpr hover
  simp [attStores, h]

theorem handleAttachment_eval_num (st1 : Store) (idP : String) (idx : Nat)
    (hid1 : jsTrim idP = idP) (hid2 : idP ≠ "") :
    handleAttachment st1 idP (.num ((idx : Nat) : ℚ)) =
      handleAttachmentCore st1 idP ((idx : Nat) : ℚ) := by
  have hq : ¬ (((idx : Nat) : ℚ) < 0) := by
    have h0 : (0 : ℚ) ≤ ((idx : Nat) : ℚ) := by exact_mod_cast Nat.zero_le idx
    exact not_lt.mpr h0
  simp [handleAttachment, hid1, hid2, hq]

theorem handleAttachmentCore_ok (st1 : Store) (mid : String) (idx : Nat)
    (meta : AttachMeta) (m : Msg) (enc : String)
    (hm : rgetMsg st1 (messageKey mid) = some m)
    (hf : m.attachments.find? (fun x => decide ((x.idx : ℚ) = ((idx : Nat) : ℚ))) =
      some meta)
    (hst : meta.stored = "redis") (hidx : meta.idx = idx)
    (hb : rgetStr st1 (attachKey mid idx) = some enc) (hne : enc ≠ "") :
    (handleAttachmentCore st1 mid ((idx : Nat) : ℚ)).1 =
      .okBytes (b64decode enc.toList) (jsOr2 meta.contentType "application/octet-stream")
        (safeName (jsOr2 meta.filename "file")) := by
  have hf2 : m.attachments.find? (fun x => decide (x.idx = idx)) = some meta := by
    simpa using hf
  simp [handleAttachmentCore, hm, hf2, hst, hidx, hb, hne]

theorem handleAttachmentCore_unavail (st1 : Store) (mid : String) (idx : Nat)
    (meta : AttachMeta) (m : Msg)
    (hm : rgetMsg st1 (messageKey mid) = some m)
    (hf : m.attachments.find? (fun x => decide ((x.idx : ℚ) = ((idx : Nat) : ℚ))) =
      some meta)
    (hst : meta.stored ≠ "redis") :
    (handleAttachmentCore st1 mid ((idx : Nat) : ℚ)).1 =
      .unavailable "attachment_not_stored_here" := by
  have hf2 : m.attachments.find? (fun x => decide (x.idx = idx)) = some meta := by
    simpa using hf
  simp [handleAttachmentCore, hm, hf2, hst]

/-- C7 (amended): for a message ingested by the main `storeMessage`,
every attachment with a nonempty payload whose size is within the 2MB
ceiling is marked `stored = "redis"` and its payload is persisted, and
fetching it returns exactly the original bytes (base64 round-trip);
every attachment over the ceiling keeps its metadata entry with
`stored = "skipped"`, and fetching it returns Unavailable (413), a
status distinct from NotFound.  (A zero-length payload within the
ceiling is nevertheless marked `"skipped"`; see the counterexample.) -/
theorem c7_attachment_size_ceiling (st : Store) (i : In) (idx : Nat) (a : AttachIn)
    (c : List Nat) (hid1 : jsTrim i.msgId = i.msgId) (hid2 : i.msgId ≠ "")
    (hget : i.atts.get? idx = some a) (hc : a.content = some c)
    (h256 : ∀ x ∈ c, x < 256) :
    ((v2record i).attachments.find?
        (fun x => decide ((x.idx : ℚ) = ((idx : Nat) : ℚ))) =
      some (mkAttachMeta idx a)) ∧
    (c ≠ [] → attSize a ≤ MAX_ATTACH_BYTES →
      (mkAttachMeta idx a).stored = "redis" ∧
      (handleAttachment (execOps st (storeMessageOps i)) i.msgId
          (.num ((idx : Nat) : ℚ))).1 =
        .okBytes c (jsOr2 (mkAttachMeta idx a).contentType "application/octet-stream")
          (safeName (jsOr2 (mkAttachMeta idx a).filename "file"))) ∧
    (MAX_ATTACH_BYTES < attSize a →
      (mkAttachMeta idx a).stored = "skipped" ∧
      (handleAttachment (execOps st (storeMessageOps i)) i.msgId
          (.num ((idx : Nat) : ℚ))).1 =
        .unavailable "attachment_not_stored_here" ∧
      ∀ err : String, (AttachResp.unavailable "attachment_not_stored_here") ≠
        .notFound err) := by
  have hfind : (v2record i).attachments.find?
      (fun x => decide ((x.idx : ℚ) = ((idx : Nat) : ℚ))) =
      some (mkAttachMeta idx a) := by
    have h0 := find_meta_enumFrom i.atts 0 idx a hget
    rw [Nat.zero_add] at h0
    simpa [v2record, storeAttachmentsMetas, List.enum] using h0
  refine ⟨hfind, ?_, ?_⟩
  · intro hne hsize
    have hstores : attStores a = true := attStores_true_of a c hc hne hsize
    have hstmeta : (mkAttachMeta idx a).stored = "redis" := by
      simp [mkAttachMeta, hstores]
    refine ⟨hstmeta, ?_⟩
    rw [handleAttachment_eval_num _ _ _ hid1 hid2]
    have henc : rgetStr (execOps st (storeMessageOps i)) (attachKey i.msgId idx) =
        some ((b64encode c).asString) := by
      have h1 := v2_att_lookup i st idx a hget hstores
      rwa [hc] at h1
    have hencne : (b64encode c).asString ≠ "" :=
      asString_ne_empty _ (b64encode_ne_nil c hne)
    rw [handleAttachmentCore_ok (execOps st (storeMessageOps i)) i.msgId idx
      (mkAttachMeta idx a) (v2record i) ((b64encode c).asString)
      (v2_msg_lookup i st) hfind hstmeta (by simp [mkAttachMeta]) henc hencne]
    have hdec : b64decode ((b64encode c).asString.toList) = c := by
      have hl : ((b64encode c).asString.toList) = b64encode c := rfl
      rw [hl]
      exact b64_roundtrip c h256
    rw [hdec]
  · intro hover
    have hstores : attStores a = false := attStores_false_of_big a hover
    have hstmeta : (mkAttachMeta idx a).stored = "skipped" := by
      simp [mkAttachMeta, hstores]
    refine ⟨hstmeta, ?_, ?_⟩
    · rw [handleAttachment_eval_num _ _ _ hid1 hid2]
      exact handleAttachmentCore_unavail (execOps st (storeMessageOps i)) i.msgId idx
        (mkAttachMeta idx a) (v2record i) (v2_msg_lookup i st) hfind
        (by rw [hstmeta]; decide)
    · intro err
      simp

/-- Witness for C7: the 3-byte attachment round-trips and the declared
5MB attachment is refused as Unavailable. -/
theorem c7_attachment_size_ceiling_witness :
    (mkAttachMeta 0 attSmall).stored = "redis" ∧
    (handleAttachment (execOps [] (storeMessageOps inAtt)) inAtt.msgId
        (.num ((0 : Nat) : ℚ))).1 =
      .okBytes [7, 200, 33]
        (jsOr2 (mkAttachMeta 0 attSmall).contentType "application/octet-stream")
        (safeName (jsOr2 (mkAttachMeta 0 attSmall).filename "file")) ∧
    (mkAttachMeta 1 attBig).stored = "skipped" ∧
    (handleAttachment (execOps [] (storeMessageOps inAtt)) inAtt.msgId
        (.num ((1 : Nat) : ℚ))).1 = .unavailable "attachment_not_stored_here" := by
  have hsmall := (c7_attachment_size_ceiling [] inAtt 0 attSmall [7, 200, 33]
    (by decide) (by decide) (by decide) (by decide) (by decide)).2.1
    (by decide) (by decide)
  have hbig := (c7_attachment_size_ceiling [] inAtt 1 attBig [1]
    (by decide) (by decide) (by decide) (by decide) (by decide)).2.2
    (by decide)
  exact ⟨hsmall.1, hsmall.2, hbig.1, hbig.2.1⟩

/-- C7 counterexample: an attachment with an empty payload has size 0 —
within the 2MB ceiling — yet `storeAttachments` marks it `"skipped"`
(the guard requires a positive size), and fetching it returns
Unavailable rather than its (empty) payload. -/
theorem c7_counterexample :
    attSize attEmpty ≤ MAX_ATTACH_BYTES ∧
    (mkAttachMeta 0 attEmpty).stored = "skipped" ∧
    (handleAttachment (execOps [] (storeMessageOps inEmpty)) "m1"
        (.num ((0 : Nat) : ℚ))).1 = .unavailable "attachment_not_stored_here" ∧
    ∀ (d : List Nat) (ct fn : String),
      (AttachResp.unavailable "attachment_not_stored_here") ≠ .okBytes d ct fn := by
  refine ⟨by decide, by decide, by decide, ?_⟩
  intro d ct fn
  simp

end TempMail

